import Mathlib

/-!
Shallow embedding of the quota-aware YouTube API access layer of the
YouFocus repository: the response cache (`APICache`), the credential
rotation manager (`APIKeyManager`) and the orchestrating client
(`YouTubeAPIClient`), together with theorems settling the spec claims.

Conventions of the embedding:
* timestamps are natural numbers (milliseconds since epoch); the ambient
  `Date.now()` of the source is passed explicitly as a `now` argument;
* a JavaScript `Map` is modelled as an association list in insertion
  order whose `set` replaces the first binding of the key in place;
* `undefined` optional fields are `Option.none`;
* fallible code returns `Except`.
-/

namespace YouFocus

/- JavaScript `Map` model: association list in insertion order. -/
namespace JsMap

/-- `map.get(k)`: first binding of `k` (bindings are unique by construction). -/
def get {β : Type} : List (String × β) → String → Option β
  | [], _ => none
  | (k, v) :: rest, key => if k = key then some v else get rest key

/-- `map.set(k, v)`: replace the first binding of `k` in place, else append. -/
def set {β : Type} : List (String × β) → String → β → List (String × β)
  | [], key, v => [(key, v)]
  | (k, w) :: rest, key, v =>
    if k = key then (k, v) :: rest else (k, w) :: set rest key v

/-- `map.delete(k)`: remove the first binding of `k`. -/
def del {β : Type} : List (String × β) → String → List (String × β)
  | [], _ => []
  | (k, v) :: rest, key => if k = key then rest else (k, v) :: del rest key

theorem get_set_self {β : Type} (m : List (String × β)) (k : String) (v : β) :
    get (set m k v) k = some v := by
  induction m with
  | nil => simp [get, set]
  | cons p rest ih =>
    obtain ⟨k1, v1⟩ := p
    by_cases h : k1 = k <;> simp [get, set, h, ih]

theorem get_set_ne {β : Type} (m : List (String × β)) (k k2 : String) (v : β)
    (h : k ≠ k2) : get (set m k v) k2 = get m k2 := by
  induction m with
  | nil => simp [get, set, h]
  | cons p rest ih =>
    obtain ⟨k1, v1⟩ := p
    by_cases h1 : k1 = k
    · subst h1; simp [get, set, h]
    · simp [get, set, h1, ih]

theorem length_set_of_get_some {β : Type} (m : List (String × β)) (k : String)
    (v : β) (h : (get m k).isSome) : (set m k v).length = m.length := by
  induction m with
  | nil => simp [get] at h
  | cons p rest ih =>
    obtain ⟨k1, v1⟩ := p
    by_cases h1 : k1 = k
    · simp [set, h1]
    · simp [get, h1] at h
      simp [set, h1, ih h]

theorem length_set_of_get_none {β : Type} (m : List (String × β)) (k : String)
    (v : β) (h : get m k = none) : (set m k v).length = m.length + 1 := by
  induction m with
  | nil => simp [set]
  | cons p rest ih =>
    obtain ⟨k1, v1⟩ := p
    by_cases h1 : k1 = k
    · simp [get, h1] at h
    · simp [get, h1] at h
      simp [set, h1, ih h]

theorem length_del_of_get_some {β : Type} (m : List (String × β)) (k : String)
    (h : (get m k).isSome) : (del m k).length + 1 = m.length := by
  induction m with
  | nil => simp [get] at h
  | cons p rest ih =>
    obtain ⟨k1, v1⟩ := p
    by_cases h1 : k1 = k
    · simp [del, h1]
    · simp [get, h1] at h
      simp [del, h1, ih h]

theorem get_eq_none_of_not_mem {β : Type} (m : List (String × β)) (k : String)
    (h : k ∉ m.map Prod.fst) : get m k = none := by
  induction m with
  | nil => simp [get]
  | cons p rest ih =>
    obtain ⟨k1, v1⟩ := p
    simp only [List.map_cons, List.mem_cons] at h
    push_neg at h
    have hne : k1 ≠ k := fun he => h.1 he.symm
    simp [get, hne, ih h.2]

theorem get_del_self {β : Type} (m : List (String × β)) (k : String)
    (hnd : (m.map Prod.fst).Nodup) : get (del m k) k = none := by
  induction m with
  | nil => simp [del, get]
  | cons p rest ih =>
    obtain ⟨k1, v1⟩ := p
    simp only [List.map_cons, List.nodup_cons] at hnd
    by_cases h1 : k1 = k
    · subst h1
      simp only [del, if_pos rfl]
      exact get_eq_none_of_not_mem rest k1 hnd.1
    · simp [del, get, h1, ih hnd.2]

end JsMap

/-!
Embedding of `src/services/APIKeyManager.ts`.
-/

/-- `APIKeyStatus` of `APIKeyManager.ts` (fields in source order). -/
structure KeyStatus where
  key : String
  isActive : Bool
  quotaExhausted : Bool
  lastError : Option String
  lastErrorTime : Option Nat
  consecutiveErrors : Nat
  nextRetryTime : Option Nat
  deriving Repr, DecidableEq

/-- State of an `APIKeyManager` instance. -/
structure APIKeyManager where
  apiKeys : List String
  keyStatuses : List (String × KeyStatus)
  currentKeyIndex : Nat
  deriving Repr, DecidableEq

namespace APIKeyManager

/-- `maxRetryDelay = 60 * 60 * 1000`, one hour in milliseconds. -/
def maxRetryDelay : Nat := 60 * 60 * 1000

/-- `baseRetryDelay = 5 * 60 * 1000`, five minutes in milliseconds. -/
def baseRetryDelay : Nat := 5 * 60 * 1000

/-- Milliseconds per day. -/
def msPerDay : Nat := 24 * 60 * 60 * 1000

/-- Models the source value `tomorrow` with hours set to midnight: the next
day boundary strictly after `now`.  The source computes the boundary in the
local timezone; the theorems below depend only on `now < nextDayMidnight now`. -/
def nextDayMidnight (now : Nat) : Nat := (now / msPerDay + 1) * msPerDay

theorem lt_nextDayMidnight (now : Nat) : now < nextDayMidnight now := by
  simp only [nextDayMidnight, msPerDay]
  omega

/-- The status every key receives at construction. -/
def initStatus (k : String) : KeyStatus :=
  { key := k, isActive := true, quotaExhausted := false, lastError := none,
    lastErrorTime := none, consecutiveErrors := 0, nextRetryTime := none }

/-- The constructor (named `make` because `mk` is taken by the structure):
rejects an empty key list, initialises all keys active. -/
def make (apiKeys : List String) : Option APIKeyManager :=
  if apiKeys.isEmpty then none
  else some
    { apiKeys := apiKeys
      keyStatuses := apiKeys.foldl (fun ss k => JsMap.set ss k (initStatus k)) []
      currentKeyIndex := 0 }

/-- JavaScript truthiness of an optional numeric field: `undefined` and `0`
are both falsy. -/
def isSet : Option Nat → Bool
  | none => false
  | some t => t ≠ 0

/-- One evaluation of the `getAvailableKeys` filter predicate on a status:
returns whether the key is available and, when the backoff window has
elapsed on a non-quota-exhausted key, the lazily reactivated status. -/
def availCheck (now : Nat) (st : KeyStatus) : Bool × Option KeyStatus :=
  if isSet st.nextRetryTime && decide (now < st.nextRetryTime.getD 0) then
    (false, none)
  else if isSet st.nextRetryTime && decide (st.nextRetryTime.getD 0 ≤ now)
      && !st.quotaExhausted then
    (true, some { st with isActive := true, nextRetryTime := none })
  else
    (st.isActive && !st.quotaExhausted, none)

/-- The `getAvailableKeys` filter over the key list, threading the status
map because evaluating availability lazily reactivates recovered keys. -/
def getAvailableKeysGo (now : Nat) :
    List String → List (String × KeyStatus) → List String × List (String × KeyStatus)
  | [], ss => ([], ss)
  | k :: ks, ss =>
    match JsMap.get ss k with
    | none => getAvailableKeysGo now ks ss
    | some st =>
      let (ok, upd) := availCheck now st
      let ss1 := match upd with
        | some st2 => JsMap.set ss k st2
        | none => ss
      let (rest, ss2) := getAvailableKeysGo now ks ss1
      (if ok then k :: rest else rest, ss2)

/-- `getAvailableKeys()`. -/
def getAvailableKeys (now : Nat) (m : APIKeyManager) :
    List String × APIKeyManager :=
  let (av, ss) := getAvailableKeysGo now m.apiKeys m.keyStatuses
  (av, { m with keyStatuses := ss })

/-- `getCurrentKey()`: silently advances the pointer to the first available
key when the current one is unavailable. -/
def getCurrentKey (now : Nat) (m : APIKeyManager) :
    Option String × APIKeyManager :=
  let (avail, m1) := getAvailableKeys now m
  if avail.isEmpty then (none, m1)
  else
    let currentKey := m1.apiKeys.getD m1.currentKeyIndex ""
    let m2 :=
      if avail.contains currentKey then m1
      else
        match m1.apiKeys.findIdx? (fun k => avail.contains k) with
        | some i => { m1 with currentKeyIndex := i }
        | none => m1
    (some (m2.apiKeys.getD m2.currentKeyIndex ""), m2)

/-- The `while (attempts < this.apiKeys.length)` scan of `rotateKey`,
with the remaining attempt budget as fuel. -/
def rotateLoop (apiKeys availableKeys : List String) :
    Nat → Nat → Option (String × Nat)
  | _, 0 => none
  | nextIndex, fuel + 1 =>
    let nextKey := apiKeys.getD nextIndex ""
    if availableKeys.contains nextKey then some (nextKey, nextIndex)
    else rotateLoop apiKeys availableKeys ((nextIndex + 1) % apiKeys.length) fuel

/-- `rotateKey()`. -/
def rotateKey (now : Nat) (m : APIKeyManager) :
    Option String × APIKeyManager :=
  let (avail, m1) := getAvailableKeys now m
  if avail.isEmpty then (none, m1)
  else
    match rotateLoop m1.apiKeys avail
        ((m1.currentKeyIndex + 1) % m1.apiKeys.length) m1.apiKeys.length with
    | some (k, i) => (some k, { m1 with currentKeyIndex := i })
    | none => (none, m1)

/-- `reportError(error, isQuotaError)` against the currently selected key. -/
def reportError (now : Nat) (error : String) (isQuotaError : Bool)
    (m : APIKeyManager) : APIKeyManager :=
  let currentKey := m.apiKeys.getD m.currentKeyIndex ""
  match JsMap.get m.keyStatuses currentKey with
  | none => m
  | some status =>
    let status1 :=
      { status with lastError := some error, lastErrorTime := some now,
                    consecutiveErrors := status.consecutiveErrors + 1 }
    let status2 :=
      if isQuotaError then
        { status1 with quotaExhausted := true, isActive := false,
                       nextRetryTime := some (nextDayMidnight now) }
      else
        let delay :=
          min (baseRetryDelay * 2 ^ (status1.consecutiveErrors - 1)) maxRetryDelay
        { status1 with nextRetryTime := some (now + delay), isActive := false }
    { m with keyStatuses := JsMap.set m.keyStatuses currentKey status2 }

/-- `reportSuccess()`: clears error state of the current key but not
`quotaExhausted`. -/
def reportSuccess (m : APIKeyManager) : APIKeyManager :=
  let currentKey := m.apiKeys.getD m.currentKeyIndex ""
  match JsMap.get m.keyStatuses currentKey with
  | none => m
  | some status =>
    let status1 :=
      { status with consecutiveErrors := 0, lastError := none,
                    lastErrorTime := none, nextRetryTime := none,
                    isActive := true }
    { m with keyStatuses := JsMap.set m.keyStatuses currentKey status1 }

/-- The status written by `resetQuotaStatus` on an exhausted key. -/
def clearedStatus (st : KeyStatus) : KeyStatus :=
  { st with quotaExhausted := false, isActive := true, nextRetryTime := none }

/-- `resetQuotaStatus()`: clears `quotaExhausted` and reactivates every
exhausted key. -/
def resetQuotaStatus (m : APIKeyManager) : APIKeyManager :=
  { m with keyStatuses := m.keyStatuses.map fun p =>
      if p.2.quotaExhausted then (p.1, clearedStatus p.2) else p }

/-- `getAvailableKeyCount()`. -/
def getAvailableKeyCount (now : Nat) (m : APIKeyManager) :
    Nat × APIKeyManager :=
  let (av, m1) := getAvailableKeys now m
  (av.length, m1)

end APIKeyManager

/-!
Embedding of the data model (`src/types/index.ts`) and of
`src/services/APICache.ts`.
-/

/-- Internal `Channel` model.  `subscriberCount` is the number obtained by
`parseInt(statistics.subscriberCount, 10)` (an unparsable string, `NaN` in
the source, is modelled as `0`; no claim depends on it). -/
structure Channel where
  id : String
  title : String
  thumbnailUrl : String
  subscriberCount : Nat
  uploadsPlaylistId : String
  deriving Repr, DecidableEq

/-- Internal `Video` model.  `publishedAt` is a `Date`, modelled as epoch
milliseconds. -/
structure Video where
  id : String
  title : String
  thumbnailUrl : String
  channelId : String
  channelTitle : String
  publishedAt : Nat
  duration : String
  description : String
  deriving Repr, DecidableEq

/-- `APIError`, the failure object surfaced by the client. -/
structure APIError where
  code : Nat
  message : String
  userMessage : String
  retryable : Bool
  deriving Repr, DecidableEq

/-- A cache entry: `{ data, timestamp, expiresAt }`. -/
structure CacheEntry (T : Type) where
  data : T
  timestamp : Nat
  expiresAt : Nat
  deriving Repr, DecidableEq

/-- Value stored in the video cache.  The cache is declared for `Video[]`,
but `searchChannels` stores `Channel[]` in it through an
`as unknown as Video[]` cast; the embedding makes that cast explicit as a
sum. -/
inductive CacheVal where
  | videos (vs : List Video)
  | channels (cs : List Channel)
  deriving Repr, DecidableEq

/-- State of an `APICache` instance. -/
structure APICache where
  channelCache : List (String × CacheEntry Channel)
  videoCache : List (String × CacheEntry CacheVal)
  defaultCacheDuration : Nat
  deriving Repr, DecidableEq

namespace APICache

/-- The constructor default: 4 hours in milliseconds. -/
def fourHours : Nat := 4 * 60 * 60 * 1000

/-- The constructor: empty maps, configurable default duration. -/
def make (cacheDurationMs : Nat := fourHours) : APICache :=
  { channelCache := [], videoCache := [], defaultCacheDuration := cacheDurationMs }

/-- `setChannel(key, channel, customDuration?)`. -/
def setChannel (now : Nat) (key : String) (channel : Channel)
    (customDuration : Option Nat) (c : APICache) : APICache :=
  let duration := customDuration.getD c.defaultCacheDuration
  let entry : CacheEntry Channel :=
    { data := channel, timestamp := now, expiresAt := now + duration }
  { c with channelCache := JsMap.set c.channelCache key entry }

/-- `getChannel(key)`: evicts and misses once `now >= expiresAt`. -/
def getChannel (now : Nat) (key : String) (c : APICache) :
    Option Channel × APICache :=
  match JsMap.get c.channelCache key with
  | none => (none, c)
  | some entry =>
    if entry.expiresAt ≤ now then
      (none, { c with channelCache := JsMap.del c.channelCache key })
    else (some entry.data, c)

/-- `setVideos(key, videos, customDuration?)`. -/
def setVideos (now : Nat) (key : String) (videos : CacheVal)
    (customDuration : Option Nat) (c : APICache) : APICache :=
  let duration := customDuration.getD c.defaultCacheDuration
  let entry : CacheEntry CacheVal :=
    { data := videos, timestamp := now, expiresAt := now + duration }
  { c with videoCache := JsMap.set c.videoCache key entry }

/-- `getVideos(key)`: evicts and misses once `now >= expiresAt`. -/
def getVideos (now : Nat) (key : String) (c : APICache) :
    Option CacheVal × APICache :=
  match JsMap.get c.videoCache key with
  | none => (none, c)
  | some entry =>
    if entry.expiresAt ≤ now then
      (none, { c with videoCache := JsMap.del c.videoCache key })
    else (some entry.data, c)

/-- `getChannelCacheSize()`. -/
def getChannelCacheSize (c : APICache) : Nat := c.channelCache.length

/-- `getVideoCacheSize()`. -/
def getVideoCacheSize (c : APICache) : Nat := c.videoCache.length

end APICache

/-!
Embedding of `src/services/YouTubeAPIClient.ts` (with the bridge hit type
of `src/services/SearchService.ts`).  Upstream I/O is modelled by an
environment of response-valued functions; each client method returns its
result, the updated cache, and the number of upstream provider requests it
issued.
-/

/-- A bridge `SearchResult` (SearchService.ts): a loosely identified hit.
`confidence` is a score, modelled as a rational. -/
structure SearchResult where
  id : String
  title : String
  thumbnailUrl : String
  videoId : String
  videoTitle : String
  confidence : ℚ
  deriving Repr, DecidableEq

/-- `snippet.thumbnails`: the `high`/`medium` variants may be absent
(`high?.url ?? medium?.url ?? default.url`). -/
structure Thumbnails where
  defaultUrl : String
  medium : Option String
  high : Option String
  deriving Repr, DecidableEq

/-- `item.snippet.thumbnails.high?.url ?? medium?.url ?? default.url`. -/
def pickThumbnail (t : Thumbnails) : String :=
  t.high.getD (t.medium.getD t.defaultUrl)

/-- A `/channels` response item (snippet/statistics/contentDetails
flattened).  `subscriberCount` is the string the API returns. -/
structure YouTubeChannelItem where
  id : String
  title : String
  thumbnails : Thumbnails
  subscriberCount : String
  uploadsPlaylistId : String
  deriving Repr, DecidableEq

/-- A `/videos` response item (snippet/contentDetails flattened; dates as
epoch milliseconds). -/
structure YouTubeVideoItem where
  id : String
  title : String
  thumbnails : Thumbnails
  channelId : String
  channelTitle : String
  publishedAt : Nat
  duration : String
  description : String
  deriving Repr, DecidableEq

/-- A `/search` response item: only `item.id.channelId` is consumed. -/
structure YouTubeChannelSearchItem where
  channelId : String
  deriving Repr, DecidableEq

/-- A `/playlistItems` response item: the client consumes
`snippet.publishedAt` and `snippet.resourceId.videoId`. -/
structure YouTubePlaylistItem where
  publishedAt : Nat
  videoId : String
  deriving Repr, DecidableEq

/-- The dynamic shape of an upstream JSON response, as far as
`validateResponse(response, ['items'])` checks it: the `items` field may be
missing or not an array. -/
structure APIResponse (T : Type) where
  hasItems : Bool
  itemsIsArray : Bool
  items : List T
  deriving Repr, DecidableEq

/-- A value thrown inside the client: an `APIError` of its own making, an
axios transport error (with or without an HTTP response), or any other
exception.  `errMessage` models `response.data?.error?.message`. -/
inductive JsError where
  | api (e : APIError)
  | axiosNetwork (message : String)
  | axiosStatus (status : Nat) (errMessage : Option String) (message : String)
  | other (message : String)
  deriving Repr, DecidableEq

namespace YouTubeAPIClient

/-- `s.toLowerCase()`, modelled characterwise (structurally, so that the
kernel can evaluate it on concrete inputs). -/
def jsToLower (s : String) : String := String.mk (s.data.map Char.toLower)

/-- `s.trim()`: strip leading and trailing whitespace, modelled
structurally over the character list. -/
def jsTrim (s : String) : String :=
  String.mk
    (((s.data.dropWhile Char.isWhitespace).reverse.dropWhile
      Char.isWhitespace).reverse)

/-- Whether `pat` occurs in the character list (helper of `strContains`). -/
def strContainsGo (pat : List Char) : List Char → Bool
  | [] => pat.isEmpty
  | c :: rest => pat.isPrefixOf (c :: rest) || strContainsGo pat rest

/-- `s.includes(pat)`. -/
def strContains (s pat : String) : Bool := strContainsGo pat.data s.data

/-- `parseInt(s, 10)` as used on the all-digits counts the API returns;
a string that is not a plain digit run gives `NaN`, modelled as `none`. -/
def jsParseNat (s : String) : Option Nat :=
  if s.data.isEmpty then none
  else if s.data.all Char.isDigit then
    some (s.data.foldl (fun acc c => acc * 10 + (c.toNat - 48)) 0)
  else none

/-- `createAPIError(code, message, userMessage, retryable)`. -/
def createAPIError (code : Nat) (message userMessage : String)
    (retryable : Bool) : APIError :=
  { code := code, message := message, userMessage := userMessage,
    retryable := retryable }

/-- `handleError(error)`: converts anything thrown into an `APIError`. -/
def handleError : JsError → APIError
  | .api e => e
  | .axiosNetwork msg =>
    createAPIError 0 msg
      "Unable to connect to YouTube. Please check your internet connection."
      true
  | .axiosStatus status errMessage msg0 =>
    let message := errMessage.getD msg0
    if status = 400 then
      createAPIError 400 message
        "Invalid request. Please check your input and try again." false
    else if status = 403 then
      if strContains (jsToLower message) "quota" then
        createAPIError 403 message
          "YouTube API quota exceeded. The quota resets daily at midnight PST. Try again in a few hours or contact support for a premium API key."
          false
      else
        createAPIError 403 message
          "Access denied. Please check your API key configuration." false
    else if status = 404 then
      createAPIError 404 message "The requested resource was not found." false
    else if status = 429 then
      createAPIError 429 message
        "Too many requests. Please wait a moment and try again." true
    else if status = 500 ∨ status = 503 then
      createAPIError status message
        "YouTube service is temporarily unavailable. Please try again later."
        true
    else
      createAPIError status message
        "An unexpected error occurred. Please try again." true
  | .other msg =>
    createAPIError 500 msg "An unexpected error occurred. Please try again."
      true

/-- `validateResponse(response, ['items'])` followed by the read of
`response.items` every call site performs on success. -/
def validateItems {T : Type} : Option (APIResponse T) → Except APIError (List T)
  | none =>
    .error (createAPIError 500 "Empty response from API"
      "Received an invalid response from YouTube" true)
  | some r =>
    if !r.hasItems then
      .error (createAPIError 500 "Missing required field: items"
        "Received an invalid response from YouTube" true)
    else if !r.itemsIsArray then
      .error (createAPIError 500 "Invalid items field in response"
        "Received an invalid response from YouTube" true)
    else .ok r.items

/-- `mapChannelItem(item)`. -/
def mapChannelItem (item : YouTubeChannelItem) : Channel :=
  { id := item.id, title := item.title,
    thumbnailUrl := pickThumbnail item.thumbnails,
    subscriberCount := (jsParseNat item.subscriberCount).getD 0,
    uploadsPlaylistId := item.uploadsPlaylistId }

/-- `mapVideoItem(item)`. -/
def mapVideoItem (item : YouTubeVideoItem) : Video :=
  { id := item.id, title := item.title,
    thumbnailUrl := pickThumbnail item.thumbnails,
    channelId := item.channelId, channelTitle := item.channelTitle,
    publishedAt := item.publishedAt, duration := item.duration,
    description := item.description }

/-- Helper of `jsDedup`: skip elements already seen. -/
def jsDedupGo (seen : List String) : List String → List String
  | [] => []
  | x :: xs =>
    if seen.contains x then jsDedupGo seen xs
    else x :: jsDedupGo (x :: seen) xs

/-- `[...new Set(xs)]`: deduplication keeping first occurrences in order. -/
def jsDedup (l : List String) : List String := jsDedupGo [] l

/-- The client configuration fields the embedded methods consume.
`hasSearchService` is whether `this.searchService` was initialised
(a bridge configuration was supplied and `useSearchService` held). -/
structure ClientConfig where
  maxResults : Nat := 50
  videoTimeWindowDays : Nat := 30
  hasSearchService : Bool
  useSearchService : Bool := true
  deriving Repr, DecidableEq

/-- The upstream world: outcomes of the bridge probe/search and of each
provider endpoint, as functions of the request parameters the client
sends. -/
structure Env where
  isHealthy : Bool
  bridgeSearch : Except JsError (List SearchResult)
  videosEndpoint : List String → Except JsError (Option (APIResponse YouTubeVideoItem))
  channelsEndpoint : List String → Except JsError (Option (APIResponse YouTubeChannelItem))
  searchEndpoint : Except JsError (Option (APIResponse YouTubeChannelSearchItem))
  playlistEndpoint : String → Nat → Except JsError (Option (APIResponse YouTubePlaylistItem))

/-- Outcome of a client method: the result, the cache afterwards, and the
number of upstream provider requests issued. -/
structure Step (α : Type) where
  res : Except APIError α
  cache : APICache
  calls : Nat

/-- Helper of `chunk50`: `cur` is the batch being filled (reversed) and
`n` its remaining capacity. -/
def chunk50Go (cur : List String) (n : Nat) : List String → List (List String)
  | [] => if cur.isEmpty then [] else [cur.reverse]
  | x :: xs =>
    if n = 0 then cur.reverse :: chunk50Go [x] 49 xs
    else chunk50Go (x :: cur) (n - 1) xs

/-- Slicing of `getVideoDetails`: the `videoIds.slice(i, i + 50)` batches,
in order. -/
def chunk50 (l : List String) : List (List String) := chunk50Go [] 50 l

/-- The per-batch loop body of `getVideoDetails`: one `/videos` request per
batch, each validated and mapped, results concatenated. -/
def fetchVideoBatches (env : Env) :
    List (List String) → Except JsError (List Video) × Nat
  | [] => (.ok [], 0)
  | b :: bs =>
    match env.videosEndpoint b with
    | .error e => (.error e, 1)
    | .ok resp =>
      match validateItems resp with
      | .error e => (.error (.api e), 1)
      | .ok items =>
        let (r, n) := fetchVideoBatches env bs
        match r with
        | .error e => (.error e, n + 1)
        | .ok rest => (.ok (items.map mapVideoItem ++ rest), n + 1)

/-- `getVideoDetails(videoIds)`: empty input short-circuits with no call. -/
def getVideoDetails (env : Env) (videoIds : List String) :
    Except APIError (List Video) × Nat :=
  if videoIds.isEmpty then (.ok [], 0)
  else
    let (r, n) := fetchVideoBatches env (chunk50 videoIds)
    match r with
    | .error e => (.error (handleError e), n)
    | .ok vids => (.ok vids, n)

/-- `getChannelsByIds(channelIds)`: one `/channels` request for all ids. -/
def getChannelsByIds (env : Env) (channelIds : List String) :
    Except APIError (List Channel) × Nat :=
  if channelIds.isEmpty then (.ok [], 0)
  else
    match env.channelsEndpoint channelIds with
    | .error e => (.error (handleError e), 1)
    | .ok resp =>
      match validateItems resp with
      | .error e => (.error (handleError (.api e)), 1)
      | .ok items => (.ok (items.map mapChannelItem), 1)

/-- Reading the video cache through the `as unknown as Channel[]` cast of
`searchChannels` (unreachable for values actually stored under `search:`
keys other than channel lists). -/
def castToChannels : CacheVal → List Channel
  | .channels cs => cs
  | .videos _ => []

/-- Reading the video cache as `Video[]` in `getChannelVideos` (the stored
value under a `videos:` key is always a video list). -/
def castToVideos : CacheVal → List Video
  | .videos vs => vs
  | .channels _ => []

/-- `getChannelInfo(channelId)`. -/
def getChannelInfo (env : Env) (channelId : String) (now : Nat)
    (cache : APICache) : Step Channel :=
  if jsTrim channelId = "" then
    { res := .error (createAPIError 400 "Channel ID cannot be empty"
        "Please provide a valid channel ID" false),
      cache := cache, calls := 0 }
  else
    match APICache.getChannel now channelId cache with
    | (some c, cache1) => { res := .ok c, cache := cache1, calls := 0 }
    | (none, cache1) =>
      match env.channelsEndpoint [channelId] with
      | .error e =>
        { res := .error (handleError e), cache := cache1, calls := 1 }
      | .ok resp =>
        match validateItems resp with
        | .error e =>
          { res := .error (handleError (.api e)), cache := cache1, calls := 1 }
        | .ok [] =>
          { res := .error (createAPIError 404 "Channel not found"
              "The channel you requested could not be found" false),
            cache := cache1, calls := 1 }
        | .ok (item :: _) =>
          let channel := mapChannelItem item
          { res := .ok channel,
            cache := APICache.setChannel now channelId channel none cache1,
            calls := 1 }

/-- The 24-hour custom duration used for search-result cache entries. -/
def ms24h : Nat := 24 * 60 * 60 * 1000

/-- The `channelRelevanceMap` construction: for each fetched video, the
confidence of the FIRST bridge hit carrying that video id (`find`),
folded with `Math.max` per channel (`get(...) || 0` modelled as a `0`
default; confidences are non-negative). -/
def relevanceFold (searchResults : List SearchResult) :
    List Video → List (String × ℚ) → List (String × ℚ)
  | [], m => m
  | v :: vs, m =>
    let m1 :=
      match searchResults.find? (fun sr => sr.videoId = v.id) with
      | some sr =>
        let current := (JsMap.get m v.channelId).getD 0
        JsMap.set m v.channelId (max current sr.confidence)
      | none => m
    relevanceFold searchResults vs m1

/-- The comparator key: `channelRelevanceMap.get(c.id) || 0`. -/
def relevanceOf (m : List (String × ℚ)) (channelId : String) : ℚ :=
  (JsMap.get m channelId).getD 0

/-- Stable insertion into a descending-sorted list: the new element goes
after every element of greater-or-equal key (ties keep earlier elements
first, as JavaScript `Array.prototype.sort` is stable). -/
def insertDesc {α : Type} (key : α → ℚ) (x : α) : List α → List α
  | [] => [x]
  | y :: ys => if key y < key x then x :: y :: ys else y :: insertDesc key x ys

/-- `channels.sort((a, b) => confidenceB - confidenceA)`: stable sort in
descending key order. -/
def sortDesc {α : Type} (key : α → ℚ) (l : List α) : List α :=
  l.foldl (fun acc x => insertDesc key x acc) []

/-- `searchChannelsViaService(query, cacheKey)`: the bridge branch.
`env.bridgeSearch` is the outcome of
`searchService.searchChannels(query, min(maxResults, 25))`. -/
def searchChannelsViaService (env : Env) (cacheKey : String) (now : Nat)
    (cache : APICache) : Step (List Channel) :=
  match env.bridgeSearch with
  | .error e => { res := .error (handleError e), cache := cache, calls := 0 }
  | .ok searchResults =>
    if searchResults.isEmpty then
      { res := .ok [], cache := cache, calls := 0 }
    else
      let videoIds := jsDedup (searchResults.map (fun r => r.videoId))
      let (r1, n1) := getVideoDetails env videoIds
      match r1 with
      | .error e =>
        { res := .error (handleError (.api e)), cache := cache, calls := n1 }
      | .ok videoDetails =>
        let channelIds := jsDedup (videoDetails.map (fun v => v.channelId))
        if channelIds.isEmpty then
          { res := .ok [], cache := cache, calls := n1 }
        else
          let (r2, n2) := getChannelsByIds env channelIds
          match r2 with
          | .error e =>
            { res := .error (handleError (.api e)), cache := cache,
              calls := n1 + n2 }
          | .ok channels =>
            let relMap := relevanceFold searchResults videoDetails []
            let sorted := sortDesc (fun c => relevanceOf relMap c.id) channels
            { res := .ok sorted,
              cache := APICache.setVideos now cacheKey (.channels sorted)
                (some ms24h) cache,
              calls := n1 + n2 }

/-- `searchChannelsViaAPI(query, cacheKey)`: the native `/search` path. -/
def searchChannelsViaAPI (env : Env) (cacheKey : String) (now : Nat)
    (cache : APICache) : Step (List Channel) :=
  match env.searchEndpoint with
  | .error e => { res := .error (handleError e), cache := cache, calls := 1 }
  | .ok resp =>
    match validateItems resp with
    | .error e =>
      { res := .error (handleError (.api e)), cache := cache, calls := 1 }
    | .ok items =>
      let channelIds := items.map (fun it => it.channelId)
      if channelIds.isEmpty then
        { res := .ok [], cache := cache, calls := 1 }
      else
        let (r2, n2) := getChannelsByIds env channelIds
        match r2 with
        | .error e =>
          { res := .error (handleError (.api e)), cache := cache,
            calls := 1 + n2 }
        | .ok channels =>
          { res := .ok channels,
            cache := APICache.setVideos now cacheKey (.channels channels)
              (some ms24h) cache,
            calls := 1 + n2 }

/-- `searchChannels(query)`: cache, then bridge (health-probed, failures
swallowed), then native fallback. -/
def searchChannels (env : Env) (cfg : ClientConfig) (query : String)
    (now : Nat) (cache : APICache) : Step (List Channel) :=
  if jsTrim query = "" then
    { res := .error (createAPIError 400 "Search query cannot be empty"
        "Please enter a channel name to search" false),
      cache := cache, calls := 0 }
  else
    let cacheKey := "search:" ++ jsTrim (jsToLower query)
    match APICache.getVideos now cacheKey cache with
    | (some v, cache1) =>
      { res := .ok (castToChannels v), cache := cache1, calls := 0 }
    | (none, cache1) =>
      if cfg.hasSearchService && cfg.useSearchService then
        if env.isHealthy then
          match searchChannelsViaService env cacheKey now cache1 with
          | { res := .ok cs, cache := cache2, calls := n } =>
            { res := .ok cs, cache := cache2, calls := n }
          | { res := .error _, cache := cache2, calls := n } =>
            let s := searchChannelsViaAPI env cacheKey now cache2
            { res := s.res, cache := s.cache, calls := n + s.calls }
        else searchChannelsViaAPI env cacheKey now cache1
      else searchChannelsViaAPI env cacheKey now cache1

/-- `getChannelVideos(channelId, maxResults?)`. -/
def getChannelVideos (env : Env) (cfg : ClientConfig) (channelId : String)
    (maxResults : Option Nat) (now : Nat) (cache : APICache) :
    Step (List Video) :=
  if jsTrim channelId = "" then
    { res := .error (createAPIError 400 "Channel ID cannot be empty"
        "Please provide a valid channel ID" false),
      cache := cache, calls := 0 }
  else
    let limit := maxResults.getD cfg.maxResults
    let cacheKey := "videos:" ++ channelId ++ ":" ++ toString limit
    match APICache.getVideos now cacheKey cache with
    | (some v, cache1) =>
      { res := .ok (castToVideos v), cache := cache1, calls := 0 }
    | (none, cache1) =>
      match getChannelInfo env channelId now cache1 with
      | { res := .error e, cache := cache2, calls := n } =>
        { res := .error e, cache := cache2, calls := n }
      | { res := .ok channel, cache := cache2, calls := n } =>
        -- `publishedAfter`: `now` minus `videoTimeWindowDays` days
        let publishedAfter : Int :=
          (now : Int) - cfg.videoTimeWindowDays * APIKeyManager.msPerDay
        match env.playlistEndpoint channel.uploadsPlaylistId limit with
        | .error e =>
          { res := .error (handleError e), cache := cache2, calls := n + 1 }
        | .ok resp =>
          match validateItems resp with
          | .error e =>
            { res := .error (handleError (.api e)), cache := cache2,
              calls := n + 1 }
          | .ok items =>
            let videoIds :=
              (items.filter fun it =>
                  publishedAfter ≤ (it.publishedAt : Int)).map
                (fun it => it.videoId)
            if videoIds.isEmpty then
              { res := .ok [], cache := cache2, calls := n + 1 }
            else
              let (r, k) := getVideoDetails env videoIds
              match r with
              | .error e =>
                { res := .error e, cache := cache2, calls := n + 1 + k }
              | .ok videos =>
                { res := .ok videos,
                  cache := APICache.setVideos now cacheKey (.videos videos)
                    none cache2,
                  calls := n + 1 + k }

end YouTubeAPIClient

/-!
Theorems settling the claims.
-/

open APIKeyManager YouTubeAPIClient

/-- Claim C2: for every key, value and ttl > 0, `set` then `get` before the
ttl has elapsed returns exactly the stored value; `get` once the current
time has reached the entry's `expiresAt` returns null and removes the entry
from the map, so a subsequent size query no longer counts it.  Proved for
both the channel mapping and the video mapping. -/
theorem C2_cache_set_get_ttl (c : APICache) (key : String) (ch : Channel)
    (vs : CacheVal) (ttl now t1 t2 : Nat) (_httl : 0 < ttl)
    (h1 : t1 < now + ttl) (h2 : now + ttl ≤ t2) :
    ((APICache.getChannel t1 key (APICache.setChannel now key ch (some ttl) c)).1
        = some ch
      ∧ (APICache.getChannel t2 key (APICache.setChannel now key ch (some ttl) c)).1
        = none
      ∧ APICache.getChannelCacheSize
          (APICache.getChannel t2 key (APICache.setChannel now key ch (some ttl) c)).2 + 1
        = APICache.getChannelCacheSize (APICache.setChannel now key ch (some ttl) c))
    ∧ ((APICache.getVideos t1 key (APICache.setVideos now key vs (some ttl) c)).1
        = some vs
      ∧ (APICache.getVideos t2 key (APICache.setVideos now key vs (some ttl) c)).1
        = none
      ∧ APICache.getVideoCacheSize
          (APICache.getVideos t2 key (APICache.setVideos now key vs (some ttl) c)).2 + 1
        = APICache.getVideoCacheSize (APICache.setVideos now key vs (some ttl) c)) := by
  have hch := JsMap.get_set_self c.channelCache key
    ({ data := ch, timestamp := now, expiresAt := now + ttl } : CacheEntry Channel)
  have hvs := JsMap.get_set_self c.videoCache key
    ({ data := vs, timestamp := now, expiresAt := now + ttl } : CacheEntry CacheVal)
  have hlt1 : ¬ (now + ttl ≤ t1) := by omega
  refine ⟨⟨?_, ?_, ?_⟩, ?_, ?_, ?_⟩
  · simp [APICache.getChannel, APICache.setChannel, hch, hlt1]
  · simp [APICache.getChannel, APICache.setChannel, hch, h2]
  · have hsome : (JsMap.get (APICache.setChannel now key ch (some ttl) c).channelCache key).isSome := by
      simp [APICache.setChannel, hch]
    have := JsMap.length_del_of_get_some
      (APICache.setChannel now key ch (some ttl) c).channelCache key hsome
    simp only [APICache.getChannel, APICache.setChannel] at *
    simp [hch, h2, APICache.getChannelCacheSize]
    simpa [APICache.setChannel] using this
  · simp [APICache.getVideos, APICache.setVideos, hvs, hlt1]
  · simp [APICache.getVideos, APICache.setVideos, hvs, h2]
  · have hsome : (JsMap.get (APICache.setVideos now key vs (some ttl) c).videoCache key).isSome := by
      simp [APICache.setVideos, hvs]
    have := JsMap.length_del_of_get_some
      (APICache.setVideos now key vs (some ttl) c).videoCache key hsome
    simp only [APICache.getVideos, APICache.setVideos] at *
    simp [hvs, h2, APICache.getVideoCacheSize]
    simpa [APICache.setVideos] using this

/-- A concrete channel used by witnesses. -/
def chanK : Channel :=
  { id := "c", title := "t", thumbnailUrl := "u", subscriberCount := 1,
    uploadsPlaylistId := "p" }

/-- Witness for C2 at a concrete instance. -/
theorem C2_cache_set_get_ttl_witness :
    (APICache.getChannel 1500 "k"
        (APICache.setChannel 1000 "k" chanK (some 1000) APICache.make)).1
      = some chanK := by
  exact (C2_cache_set_get_ttl APICache.make "k" chanK
    (CacheVal.videos []) 1000 1000 1500 2000 (by decide) (by decide)
    (by decide)).1.1

/-- Counterexample to claim C9: a structurally malformed upstream response
(missing the required `items` field) is surfaced with `retryable = true`,
not `false` as the claim states. -/
theorem C9_counterexample :
    validateItems
        (some ({ hasItems := false, itemsIsArray := true, items := [] }
          : APIResponse YouTubeChannelItem))
      = Except.error (createAPIError 500 "Missing required field: items"
          "Received an invalid response from YouTube" true)
    ∧ (createAPIError 500 "Missing required field: items"
        "Received an invalid response from YouTube" true).retryable = true := by
  exact ⟨rfl, rfl⟩

/-- Claim C9 as amended: `retryable` is true for network failures (code 0),
5xx, 429 and also for structurally malformed upstream responses (which are
surfaced as code 500); it is false for 403 (quota-exhausted or otherwise),
400 validation failures, and 404 not-found. -/
theorem C9_retryable_taxonomy (msg msg0 : String) (em : Option String) :
    ((handleError (.axiosNetwork msg)).retryable = true
      ∧ (handleError (.axiosNetwork msg)).code = 0)
    ∧ (handleError (.axiosStatus 500 em msg0)).retryable = true
    ∧ (handleError (.axiosStatus 503 em msg0)).retryable = true
    ∧ (handleError (.axiosStatus 429 em msg0)).retryable = true
    ∧ (handleError (.axiosStatus 403 em msg0)).retryable = false
    ∧ (handleError (.axiosStatus 400 em msg0)).retryable = false
    ∧ (handleError (.axiosStatus 404 em msg0)).retryable = false
    ∧ (∀ (r : Option (APIResponse YouTubeChannelItem)) (e : APIError),
        validateItems r = .error e → (e.retryable = true ∧ e.code = 500)) := by
  refine ⟨⟨rfl, rfl⟩, rfl, rfl, rfl, ?_, rfl, rfl, ?_⟩
  · simp only [handleError]
    norm_num
    split <;> rfl
  · intro r e h
    match r with
    | none =>
      simp only [validateItems] at h
      cases h
      exact ⟨rfl, rfl⟩
    | some resp =>
      simp only [validateItems] at h
      by_cases h1 : resp.hasItems
      · by_cases h2 : resp.itemsIsArray
        · simp [h1, h2] at h
        · simp only [h1, h2, Bool.not_true, Bool.not_false, if_false, if_true,
            Bool.not_eq_true] at h
          cases h
          exact ⟨rfl, rfl⟩
      · simp only [Bool.not_eq_true] at h1
        simp only [h1, Bool.not_false, if_true] at h
        cases h
        exact ⟨rfl, rfl⟩

/-- Witness for C9 at a concrete instance. -/
theorem C9_retryable_taxonomy_witness :
    (handleError (.axiosStatus 403 (some "quotaExceeded") "failed")).retryable
      = false :=
  (C9_retryable_taxonomy "m" "failed" (some "quotaExceeded")).2.2.2.2.1

/-- The status written by a transient `reportError` for prior status `st`. -/
def transientErrStatus (st : KeyStatus) (now : Nat) (msg : String) : KeyStatus :=
  { st with
    lastError := some msg
    lastErrorTime := some now
    consecutiveErrors := st.consecutiveErrors + 1
    isActive := false
    nextRetryTime := some (now +
      min (baseRetryDelay * 2 ^ ((st.consecutiveErrors + 1) - 1)) maxRetryDelay) }

/-- The status written by `reportSuccess` for prior status `st`. -/
def successStatus (st : KeyStatus) : KeyStatus :=
  { st with
    consecutiveErrors := 0
    lastError := none
    lastErrorTime := none
    nextRetryTime := none
    isActive := true }

theorem reportSuccess_apiKeys (m : APIKeyManager) :
    (reportSuccess m).apiKeys = m.apiKeys := by
  simp only [reportSuccess]
  cases JsMap.get m.keyStatuses (m.apiKeys.getD m.currentKeyIndex "") <;> rfl

theorem reportSuccess_currentKeyIndex (m : APIKeyManager) :
    (reportSuccess m).currentKeyIndex = m.currentKeyIndex := by
  simp only [reportSuccess]
  cases JsMap.get m.keyStatuses (m.apiKeys.getD m.currentKeyIndex "") <;> rfl

theorem reportSuccess_get_current (m : APIKeyManager) (st : KeyStatus)
    (hst : JsMap.get m.keyStatuses (m.apiKeys.getD m.currentKeyIndex "") = some st) :
    JsMap.get (reportSuccess m).keyStatuses (m.apiKeys.getD m.currentKeyIndex "")
      = some (successStatus st) := by
  simp only [reportSuccess, hst, successStatus]
  exact JsMap.get_set_self m.keyStatuses _ _

theorem reportError_transient_get_current (m : APIKeyManager) (st : KeyStatus)
    (now : Nat) (msg : String)
    (hst : JsMap.get m.keyStatuses (m.apiKeys.getD m.currentKeyIndex "") = some st) :
    JsMap.get (reportError now msg false m).keyStatuses
        (m.apiKeys.getD m.currentKeyIndex "")
      = some (transientErrStatus st now msg) := by
  simp only [reportError, hst, transientErrStatus, Bool.false_eq_true, if_false]
  exact JsMap.get_set_self m.keyStatuses _ _

/-- Claim C5: a transient (non-quota) `reportError` increments
`consecutiveErrors` and sets `nextRetryTime` to
`now + min (baseRetryDelay * 2 ^ (consecutiveErrors - 1)) maxRetryDelay`
(with the post-increment count, and `baseRetryDelay` = 5 minutes,
`maxRetryDelay` = 60 minutes); the successive backoff deltas are
non-decreasing and bounded by `maxRetryDelay`; an intervening
`reportSuccess` resets `consecutiveErrors`, so the next transient failure
uses the base delay again. -/
theorem C5_transient_backoff (m : APIKeyManager) (st : KeyStatus)
    (now now2 : Nat) (msg msg2 : String)
    (hst : JsMap.get m.keyStatuses (m.apiKeys.getD m.currentKeyIndex "") = some st) :
    (JsMap.get (reportError now msg false m).keyStatuses
        (m.apiKeys.getD m.currentKeyIndex "")
      = some (transientErrStatus st now msg))
    ∧ ((transientErrStatus st now msg).nextRetryTime
      = some (now +
          min (baseRetryDelay * 2 ^ ((st.consecutiveErrors + 1) - 1))
            maxRetryDelay))
    ∧ (∀ c : Nat,
        min (baseRetryDelay * 2 ^ c) maxRetryDelay
          ≤ min (baseRetryDelay * 2 ^ (c + 1)) maxRetryDelay
        ∧ min (baseRetryDelay * 2 ^ c) maxRetryDelay ≤ maxRetryDelay)
    ∧ ((JsMap.get (reportError now2 msg2 false (reportSuccess m)).keyStatuses
          (m.apiKeys.getD m.currentKeyIndex "")).map
            (fun s => (s.consecutiveErrors, s.nextRetryTime))
        = some (1, some (now2 + baseRetryDelay))) := by
  refine ⟨reportError_transient_get_current m st now msg hst, rfl, ?_, ?_⟩
  · intro c
    constructor
    · exact min_le_min
        (Nat.mul_le_mul_left _ (Nat.pow_le_pow_right (by decide) (by omega)))
        (Nat.le_refl _)
    · exact min_le_right _ _
  · have h1 := reportSuccess_get_current m st hst
    rw [← reportSuccess_apiKeys m, ← reportSuccess_currentKeyIndex m] at h1
    have h2 := reportError_transient_get_current (reportSuccess m)
      (successStatus st) now2 msg2 h1
    rw [reportSuccess_apiKeys m, reportSuccess_currentKeyIndex m] at h2
    rw [h2]
    have hbase : min (baseRetryDelay * 2 ^ ((0 + 1) - 1)) maxRetryDelay
        = baseRetryDelay := by decide
    simp [transientErrStatus, successStatus, hbase]
    decide

/-- Witness for C5 at a concrete instance: one key, fresh status. -/
theorem C5_transient_backoff_witness :
    JsMap.get
        (reportError 5000 "err" false
          { apiKeys := ["k"], keyStatuses := [("k", initStatus "k")],
            currentKeyIndex := 0 }).keyStatuses "k"
      = some { key := "k", isActive := false, quotaExhausted := false,
               lastError := some "err", lastErrorTime := some 5000,
               consecutiveErrors := 1,
               nextRetryTime := some (5000 + 300000) } := by
  have h := (C5_transient_backoff
    { apiKeys := ["k"], keyStatuses := [("k", initStatus "k")],
      currentKeyIndex := 0 }
    (initStatus "k") 5000 0 "err" "x" (by decide)).1
  simpa [initStatus] using h

/-!
Availability lemmas for the key manager.
-/

theorem contains_iff (l : List String) (x : String) :
    l.contains x = true ↔ x ∈ l := by
  simp [List.contains, List.elem_iff]

/-- A quota-exhausted status always fails the availability filter and is
never mutated by it. -/
theorem availCheck_quota (now : Nat) (st : KeyStatus)
    (hq : st.quotaExhausted = true) : availCheck now st = (false, none) := by
  simp only [availCheck, hq]
  split
  · rfl
  · simp

/-- A status with no pending `nextRetryTime` is available iff it is active
and not quota-exhausted, with no mutation. -/
theorem availCheck_noRetry (now : Nat) (st : KeyStatus)
    (h : st.nextRetryTime = none) :
    availCheck now st = (st.isActive && !st.quotaExhausted, none) := by
  simp [availCheck, h, isSet]

/-- An elapsed backoff window on a non-quota-exhausted key reactivates it. -/
theorem availCheck_recovered (now : Nat) (st : KeyStatus) (t : Nat)
    (hq : st.quotaExhausted = false) (hnrt : st.nextRetryTime = some t)
    (ht0 : 0 < t) (htn : t ≤ now) :
    availCheck now st
      = (true, some { st with isActive := true, nextRetryTime := none }) := by
  have h1 : isSet st.nextRetryTime = true := by
    simp [isSet, hnrt]
    omega
  have h2 : ¬ (now < st.nextRetryTime.getD 0) := by simp [hnrt]; omega
  have h3 : st.nextRetryTime.getD 0 ≤ now := by simp [hnrt]; omega
  simp [availCheck, h1, h2, h3, hq]

/-- Every available key is an element of the scanned list. -/
theorem mem_of_getAvailableKeysGo (now : Nat) :
    ∀ (l : List String) (ss : List (String × KeyStatus)) (x : String),
      x ∈ (getAvailableKeysGo now l ss).1 → x ∈ l := by
  intro l
  induction l with
  | nil => intro ss x h; simp [getAvailableKeysGo] at h
  | cons k ks ih =>
    intro ss x h
    simp only [getAvailableKeysGo] at h
    cases hget : JsMap.get ss k with
    | none =>
      rw [hget] at h
      exact List.mem_cons_of_mem _ (ih ss x h)
    | some st =>
      rw [hget] at h
      simp only at h
      by_cases hok : (availCheck now st).1
      · rw [if_pos hok] at h
        rcases List.mem_cons.mp h with h1 | h1
        · exact h1 ▸ List.mem_cons_self _ _
        · exact List.mem_cons_of_mem _ (ih _ x h1)
      · rw [if_neg hok] at h
        exact List.mem_cons_of_mem _ (ih _ x h)

/-- A key whose status is quota-exhausted is excluded from the available
list, and its status entry is left untouched. -/
theorem getAvailableKeysGo_quota (now : Nat) (k : String) (st : KeyStatus)
    (hq : st.quotaExhausted = true) :
    ∀ (l : List String) (ss : List (String × KeyStatus)),
      JsMap.get ss k = some st →
      k ∉ (getAvailableKeysGo now l ss).1
        ∧ JsMap.get (getAvailableKeysGo now l ss).2 k = some st := by
  intro l
  induction l with
  | nil => intro ss hget; simpa [getAvailableKeysGo] using hget
  | cons x xs ih =>
    intro ss hget
    simp only [getAvailableKeysGo]
    by_cases hxk : x = k
    · subst hxk
      rw [hget]
      simp only
      rw [availCheck_quota now st hq]
      simp only [Bool.false_eq_true, if_false]
      exact ih ss hget
    · cases hx : JsMap.get ss x with
      | none => exact ih ss hget
      | some stx =>
        simp only
        rcases hupd : (availCheck now stx).2 with _ | st2
        · have := ih ss hget
          by_cases hok : (availCheck now stx).1
          · rw [if_pos hok]
            refine ⟨fun hmem => ?_, this.2⟩
            rcases List.mem_cons.mp hmem with h1 | h1
            · exact hxk h1.symm
            · exact this.1 h1
          · rw [if_neg hok]
            exact this
        · have hget1 : JsMap.get (JsMap.set ss x st2) k = some st := by
            rw [JsMap.get_set_ne ss x k st2 hxk]
            exact hget
          have := ih (JsMap.set ss x st2) hget1
          by_cases hok : (availCheck now stx).1
          · rw [if_pos hok]
            refine ⟨fun hmem => ?_, this.2⟩
            rcases List.mem_cons.mp hmem with h1 | h1
            · exact hxk h1.symm
            · exact this.1 h1
          · rw [if_neg hok]
            exact this

/-- A key with an elapsed (non-zero) backoff window and no quota exhaustion
is available. -/
theorem getAvailableKeysGo_transient_mem (now : Nat) (k : String)
    (st : KeyStatus) (t : Nat) (hq : st.quotaExhausted = false)
    (hnrt : st.nextRetryTime = some t) (ht0 : 0 < t) (htn : t ≤ now) :
    ∀ (l : List String) (ss : List (String × KeyStatus)),
      k ∈ l → JsMap.get ss k = some st →
      k ∈ (getAvailableKeysGo now l ss).1 := by
  intro l
  induction l with
  | nil => intro ss hmem; exact absurd hmem (List.not_mem_nil k)
  | cons x xs ih =>
    intro ss hmem hget
    simp only [getAvailableKeysGo]
    by_cases hxk : x = k
    · subst hxk
      rw [hget]
      simp only
      rw [availCheck_recovered now st t hq hnrt ht0 htn]
      simp
    · have hmem2 : k ∈ xs := by
        rcases List.mem_cons.mp hmem with h1 | h1
        · exact absurd h1.symm hxk
        · exact h1
      cases hx : JsMap.get ss x with
      | none => exact ih ss hmem2 hget
      | some stx =>
        simp only
        rcases hupd : (availCheck now stx).2 with _ | st2
        · by_cases hok : (availCheck now stx).1
          · rw [if_pos hok]
            exact List.mem_cons_of_mem _ (ih ss hmem2 hget)
          · rw [if_neg hok]
            exact ih ss hmem2 hget
        · have hget1 : JsMap.get (JsMap.set ss x st2) k = some st := by
            rw [JsMap.get_set_ne ss x k st2 hxk]
            exact hget
          by_cases hok : (availCheck now stx).1
          · rw [if_pos hok]
            exact List.mem_cons_of_mem _ (ih _ hmem2 hget1)
          · rw [if_neg hok]
            exact ih _ hmem2 hget1

theorem getAvailableKeys_apiKeys (now : Nat) (m : APIKeyManager) :
    (getAvailableKeys now m).2.apiKeys = m.apiKeys := rfl

theorem getAvailableKeys_currentKeyIndex (now : Nat) (m : APIKeyManager) :
    (getAvailableKeys now m).2.currentKeyIndex = m.currentKeyIndex := rfl

/-- Whatever `getCurrentKey` returns is in the available list. -/
theorem getCurrentKey_mem (now : Nat) (m : APIKeyManager) (x : String)
    (h : (getCurrentKey now m).1 = some x) :
    x ∈ (getAvailableKeys now m).1 := by
  rcases havail : getAvailableKeys now m with ⟨avail, m1⟩
  have hkeys : m1.apiKeys = m.apiKeys := by
    have := getAvailableKeys_apiKeys now m
    rw [havail] at this
    exact this
  simp only [getCurrentKey, havail] at h
  by_cases hemp : avail.isEmpty
  · simp [hemp] at h
  · rw [if_neg hemp] at h
    have hne : avail ≠ [] := fun hnil => hemp (by simp [hnil])
    by_cases hcont : avail.contains (m1.apiKeys.getD m1.currentKeyIndex "")
    · rw [if_pos hcont] at h
      simp only [Option.some.injEq] at h
      subst h
      exact (contains_iff _ _).mp hcont
    · rw [if_neg hcont] at h
      cases hf : m1.apiKeys.findIdx? (fun k => avail.contains k) with
      | none =>
        exfalso
        have hall := List.findIdx?_eq_none_iff.mp hf
        have hhead : avail.head hne ∈ avail := List.head_mem hne
        have hmem : avail.head hne ∈ m.apiKeys := by
          have := mem_of_getAvailableKeysGo now m.apiKeys m.keyStatuses
            (avail.head hne)
          apply this
          have : (getAvailableKeysGo now m.apiKeys m.keyStatuses).1 = avail := by
            have : getAvailableKeys now m
                = (⟨(getAvailableKeysGo now m.apiKeys m.keyStatuses).1, _⟩
                  : List String × APIKeyManager) := rfl
            rw [havail] at this
            exact (congrArg Prod.fst this).symm
          rw [this]
          exact hhead
        rw [← hkeys] at hmem
        have := hall _ hmem
        rw [(contains_iff _ _).mpr hhead] at this
        exact Bool.true_eq_false.mp this
      | some i =>
        rw [hf] at h
        simp only [Option.some.injEq] at h
        rcases List.findIdx?_eq_some_iff_getElem.mp hf with ⟨hi, hp, _⟩
        rw [← h]
        have : m1.apiKeys.getD i "" = m1.apiKeys[i] := List.getD_eq_getElem _ _ hi
        rw [this]
        exact (contains_iff _ _).mp hp

/-- Whatever the rotation scan returns is in the available list. -/
theorem rotateLoop_mem (keys avail : List String) :
    ∀ (f i : Nat) (k : String) (j : Nat),
      rotateLoop keys avail i f = some (k, j) → k ∈ avail := by
  intro f
  induction f with
  | zero => intro i k j h; simp [rotateLoop] at h
  | succ f ih =>
    intro i k j h
    simp only [rotateLoop] at h
    by_cases hc : avail.contains (keys.getD i "")
    · rw [if_pos hc] at h
      simp only [Option.some.injEq, Prod.mk.injEq] at h
      rw [← h.1]
      exact (contains_iff _ _).mp hc
    · rw [if_neg hc] at h
      exact ih _ k j h

/-- Whatever `rotateKey` returns is in the available list. -/
theorem rotateKey_mem (now : Nat) (m : APIKeyManager) (x : String)
    (h : (rotateKey now m).1 = some x) :
    x ∈ (getAvailableKeys now m).1 := by
  rcases havail : getAvailableKeys now m with ⟨avail, m1⟩
  simp only [rotateKey, havail] at h
  by_cases hemp : avail.isEmpty
  · simp [hemp] at h
  · rw [if_neg hemp] at h
    cases hl : rotateLoop m1.apiKeys avail
        ((m1.currentKeyIndex + 1) % m1.apiKeys.length) m1.apiKeys.length with
    | none => rw [hl] at h; simp at h
    | some p =>
      rw [hl] at h
      rcases p with ⟨k, i⟩
      simp only [Option.some.injEq] at h
      subst h
      exact rotateLoop_mem m1.apiKeys avail _ _ _ _ hl

/-- `reportSuccess` never changes the `quotaExhausted` flag of any key. -/
theorem reportSuccess_quota_preserved (m : APIKeyManager) (k : String) :
    (JsMap.get (reportSuccess m).keyStatuses k).map (fun s => s.quotaExhausted)
      = (JsMap.get m.keyStatuses k).map (fun s => s.quotaExhausted) := by
  simp only [reportSuccess]
  cases hc : JsMap.get m.keyStatuses (m.apiKeys.getD m.currentKeyIndex "") with
  | none => rfl
  | some st =>
    simp only
    by_cases hk : m.apiKeys.getD m.currentKeyIndex "" = k
    · rw [← hk, JsMap.get_set_self, hc]
      simp
    · rw [JsMap.get_set_ne _ _ _ _ hk]

/-- `reportError` never clears an established `quotaExhausted` flag. -/
theorem reportError_quota_preserved (m : APIKeyManager) (k : String)
    (st : KeyStatus) (now : Nat) (msg : String) (b : Bool)
    (hget : JsMap.get m.keyStatuses k = some st)
    (hq : st.quotaExhausted = true) :
    (JsMap.get (reportError now msg b m).keyStatuses k).map
        (fun s => s.quotaExhausted)
      = some true := by
  simp only [reportError]
  cases hc : JsMap.get m.keyStatuses (m.apiKeys.getD m.currentKeyIndex "") with
  | none => rw [hget]; simp [hq]
  | some st0 =>
    simp only
    by_cases hk : m.apiKeys.getD m.currentKeyIndex "" = k
    · rw [hk, JsMap.get_set_self]
      rw [hk, hget] at hc
      cases hc
      cases b
      · simp [hq]
      · simp
    · rw [JsMap.get_set_ne _ _ _ _ hk, hget]
      simp [hq]

/-- What `resetQuotaStatus` does to each binding. -/
theorem resetQuotaStatus_get (m : APIKeyManager) (k : String) :
    JsMap.get (resetQuotaStatus m).keyStatuses k
      = (JsMap.get m.keyStatuses k).map
          (fun st => if st.quotaExhausted then clearedStatus st else st) := by
  show JsMap.get (m.keyStatuses.map _) k = _
  induction m.keyStatuses with
  | nil => rfl
  | cons p rest ih =>
    rcases p with ⟨k1, v1⟩
    simp only [List.map_cons, Prod.fst, Prod.snd]
    by_cases hq : v1.quotaExhausted
    · simp only [hq, if_true]
      by_cases hk : k1 = k
      · simp [JsMap.get, hk, hq]
      · simp only [JsMap.get, hk, if_false]
        exact ih
    · simp only [hq, if_false, Bool.false_eq_true]
      by_cases hk : k1 = k
      · simp [JsMap.get, hk, hq]
      · simp only [JsMap.get, hk, if_false]
        exact ih

theorem resetQuotaStatus_apiKeys (m : APIKeyManager) :
    (resetQuotaStatus m).apiKeys = m.apiKeys := rfl

theorem jsget_append_of_none {β : Type} (l1 l2 : List (String × β)) (k : String)
    (h : JsMap.get l1 k = none) :
    JsMap.get (l1 ++ l2) k = JsMap.get l2 k := by
  induction l1 with
  | nil => rfl
  | cons p rest ih =>
    rcases p with ⟨k1, v1⟩
    by_cases hk : k1 = k
    · simp [JsMap.get, hk] at h
    · simp only [JsMap.get, hk, if_false] at h ⊢
      exact ih h

theorem jsget_append_of_some {β : Type} (l1 l2 : List (String × β)) (k : String)
    (v : β) (h : JsMap.get l1 k = some v) :
    JsMap.get (l1 ++ l2) k = some v := by
  induction l1 with
  | nil => simp [JsMap.get] at h
  | cons p rest ih =>
    rcases p with ⟨k1, v1⟩
    by_cases hk : k1 = k
    · simp only [JsMap.get, hk, if_true] at h ⊢
      simpa using h
    · simp only [JsMap.get, hk, if_false] at h ⊢
      exact ih h

theorem jsget_map_self {β : Type} (f : String → β) (l : List String) (k : String) :
    JsMap.get (l.map fun x => (x, f x)) k
      = if k ∈ l then some (f k) else none := by
  induction l with
  | nil => simp [JsMap.get]
  | cons x xs ih =>
    by_cases hk : x = k
    · subst hk
      simp [JsMap.get]
    · simp only [List.map_cons, JsMap.get, hk, if_false, ih, List.mem_cons]
      have : ¬ k = x := fun he => hk he.symm
      simp [this]

theorem jsset_eq_append_of_none {β : Type} (l : List (String × β)) (k : String)
    (v : β) (h : JsMap.get l k = none) :
    JsMap.set l k v = l ++ [(k, v)] := by
  induction l with
  | nil => rfl
  | cons p rest ih =>
    rcases p with ⟨k1, v1⟩
    by_cases hk : k1 = k
    · simp [JsMap.get, hk] at h
    · simp only [JsMap.get, hk, if_false] at h
      simp only [JsMap.set, hk, if_false, List.cons_append, List.cons.injEq]
      exact ⟨trivial, ih h⟩

theorem jsset_append_right {β : Type} (l1 l2 : List (String × β)) (k : String)
    (v : β) (h : JsMap.get l1 k = none) :
    JsMap.set (l1 ++ l2) k v = l1 ++ JsMap.set l2 k v := by
  induction l1 with
  | nil => rfl
  | cons p rest ih =>
    rcases p with ⟨k1, v1⟩
    by_cases hk : k1 = k
    · simp [JsMap.get, hk] at h
    · simp only [JsMap.get, hk, if_false] at h
      simp only [List.cons_append, JsMap.set, hk, if_false, List.cons.injEq]
      exact ⟨trivial, ih h⟩

/-- When no status is mutated by the availability filter, the filter is a
plain `List.filter` and the statuses are unchanged. -/
theorem getAvailableKeysGo_stable (now : Nat) :
    ∀ (l : List String) (ss : List (String × KeyStatus)),
      (∀ k ∈ l, ∀ st, JsMap.get ss k = some st → (availCheck now st).2 = none) →
      getAvailableKeysGo now l ss
        = (l.filter (fun k =>
            match JsMap.get ss k with
            | some st => (availCheck now st).1
            | none => false), ss) := by
  intro l
  induction l with
  | nil => intro ss _; rfl
  | cons x xs ih =>
    intro ss h
    simp only [getAvailableKeysGo]
    cases hx : JsMap.get ss x with
    | none =>
      rw [ih ss (fun k hk st hst => h k (List.mem_cons_of_mem _ hk) st hst)]
      simp [List.filter_cons, hx]
    | some st =>
      have hupd : (availCheck now st).2 = none :=
        h x (List.mem_cons_self _ _) st hx
      simp only [hupd]
      rw [ih ss (fun k hk st2 hst => h k (List.mem_cons_of_mem _ hk) st2 hst)]
      simp only [List.filter_cons, hx]

/-!
The quota-storm scenario of claim C3: consecutive quota failures, one per
key, with the client-style rotation in between.
-/

/-- One quota-failure step: report a quota error against the current key,
then rotate to the next key. -/
def stormStep (now : Nat) (msg : String) (m : APIKeyManager) : APIKeyManager :=
  (rotateKey now (reportError now msg true m)).2

/-- `n` consecutive quota-failure steps. -/
def stormIter (now : Nat) (msg : String) : Nat → APIKeyManager → APIKeyManager
  | 0, m => m
  | n + 1, m => stormStep now msg (stormIter now msg n m)

/-- The status a fresh key has right after a quota-class `reportError`. -/
def quotaErrStatus (k : String) (now : Nat) (msg : String) : KeyStatus :=
  { key := k, isActive := false, quotaExhausted := true,
    lastError := some msg, lastErrorTime := some now,
    consecutiveErrors := 1, nextRetryTime := some (nextDayMidnight now) }

/-- Status map in which the first `j` keys are quota-exhausted and the rest
are fresh. -/
def stormStatuses (keys : List String) (now : Nat) (msg : String) (j : Nat) :
    List (String × KeyStatus) :=
  (keys.take j).map (fun k => (k, quotaErrStatus k now msg))
    ++ (keys.drop j).map (fun k => (k, initStatus k))

/-- Manager state after the first `j` keys were quota-exhausted. -/
def stormState (keys : List String) (now : Nat) (msg : String) (j : Nat) :
    APIKeyManager :=
  { apiKeys := keys, keyStatuses := stormStatuses keys now msg j,
    currentKeyIndex := j }

theorem stormStatuses_get (keys : List String) (now : Nat) (msg : String)
    (j : Nat) (k : String) :
    JsMap.get (stormStatuses keys now msg j) k
      = if k ∈ keys.take j then some (quotaErrStatus k now msg)
        else if k ∈ keys.drop j then some (initStatus k) else none := by
  by_cases h1 : k ∈ keys.take j
  · have hA := jsget_map_self (fun k => quotaErrStatus k now msg) (keys.take j) k
    rw [if_pos h1] at hA
    rw [stormStatuses, jsget_append_of_some _ _ _ _ hA, if_pos h1]
  · have hA := jsget_map_self (fun k => quotaErrStatus k now msg) (keys.take j) k
    rw [if_neg h1] at hA
    have hB := jsget_map_self (fun k => initStatus k) (keys.drop j) k
    rw [stormStatuses, jsget_append_of_none _ _ _ hA, if_neg h1, hB]

theorem availCheck_initStatus (now : Nat) (k : String) :
    availCheck now (initStatus k) = (true, none) := by
  rw [availCheck_noRetry now (initStatus k) rfl]
  rfl

theorem availCheck_cleared_quotaErr (now : Nat) (k : String) (msg : String) :
    availCheck now (clearedStatus (quotaErrStatus k now msg)) = (true, none) := by
  rw [availCheck_noRetry now _ rfl]
  rfl

/-- A filter whose predicate rejects the first `j` positions and accepts
the rest keeps exactly the dropped suffix. -/
theorem filter_pred_split (p : String → Bool) (keys : List String) (j : Nat)
    (h1 : ∀ a ∈ keys.take j, p a = false)
    (h2 : ∀ a ∈ keys.drop j, p a = true) :
    keys.filter p = keys.drop j := by
  conv_lhs => rw [← List.take_append_drop j keys]
  rw [List.filter_append,
    List.filter_eq_nil_iff.mpr (fun a ha => by rw [h1 a ha]; exact Bool.false_ne_true),
    List.filter_eq_self.mpr h2, List.nil_append]

/-- Availability on a storm state: exactly the keys after position `j`,
with nothing mutated; the current index does not matter. -/
theorem stormStatuses_avail (keys : List String) (now : Nat) (msg : String)
    (j i : Nat) (hnd : keys.Nodup) :
    getAvailableKeys now
        { apiKeys := keys, keyStatuses := stormStatuses keys now msg j,
          currentKeyIndex := i }
      = (keys.drop j,
          { apiKeys := keys, keyStatuses := stormStatuses keys now msg j,
            currentKeyIndex := i }) := by
  have hstab := getAvailableKeysGo_stable now keys (stormStatuses keys now msg j)
    (by
      intro k hk st hget
      rw [stormStatuses_get] at hget
      by_cases h1 : k ∈ keys.take j
      · rw [if_pos h1] at hget
        cases hget
        rw [availCheck_quota now _ rfl]
      · rw [if_neg h1] at hget
        by_cases h2 : k ∈ keys.drop j
        · rw [if_pos h2] at hget
          cases hget
          rw [availCheck_initStatus]
        · rw [if_neg h2] at hget
          cases hget)
  have hdisj : (keys.take j).Disjoint (keys.drop j) :=
    List.disjoint_take_drop hnd (le_refl j)
  have hfilter : keys.filter (fun k =>
      match JsMap.get (stormStatuses keys now msg j) k with
      | some st => (availCheck now st).1
      | none => false) = keys.drop j := by
    apply filter_pred_split
    · intro a ha
      rw [stormStatuses_get, if_pos ha]
      simp [availCheck_quota now (quotaErrStatus a now msg) rfl]
    · intro a ha
      have hnt : a ∉ keys.take j := fun hmem => hdisj hmem ha
      rw [stormStatuses_get, if_neg hnt, if_pos ha]
      simp [availCheck_initStatus]
  show (let r := getAvailableKeysGo now keys (stormStatuses keys now msg j); _) = _
  rw [getAvailableKeys, hstab]
  simp only [hfilter]

/-- A quota-class `reportError` on storm state `j` exhausts key `j`. -/
theorem stormState_reportError (keys : List String) (now : Nat) (msg : String)
    (j : Nat) (hnd : keys.Nodup) (hj : j < keys.length) :
    reportError now msg true (stormState keys now msg j)
      = { apiKeys := keys, keyStatuses := stormStatuses keys now msg (j + 1),
          currentKeyIndex := j } := by
  have hdisj : (keys.take j).Disjoint (keys.drop j) :=
    List.disjoint_take_drop hnd (le_refl j)
  have hdropc : keys.drop j = keys[j] :: keys.drop (j + 1) :=
    List.drop_eq_getElem_cons hj
  have hgetD : keys.getD j "" = keys[j] := List.getD_eq_getElem _ _ hj
  have hjmem : keys[j] ∈ keys.drop j := by rw [hdropc]; exact List.mem_cons_self _ _
  have hjnt : keys[j] ∉ keys.take j := fun hmem => hdisj hmem hjmem
  have hgetj : JsMap.get (stormStatuses keys now msg j) keys[j]
      = some (initStatus keys[j]) := by
    rw [stormStatuses_get, if_neg hjnt, if_pos hjmem]
  have hgetA : JsMap.get
      ((keys.take j).map (fun k => (k, quotaErrStatus k now msg))) keys[j] = none := by
    have := jsget_map_self (fun k => quotaErrStatus k now msg) (keys.take j) keys[j]
    rw [if_neg hjnt] at this
    exact this
  have hset : JsMap.set (stormStatuses keys now msg j) keys[j]
      (quotaErrStatus keys[j] now msg)
      = stormStatuses keys now msg (j + 1) := by
    rw [stormStatuses, jsset_append_right _ _ _ _ hgetA, hdropc, List.map_cons]
    have hsethead : JsMap.set
        ((keys[j], initStatus keys[j])
          :: (keys.drop (j + 1)).map (fun k => (k, initStatus k)))
        keys[j] (quotaErrStatus keys[j] now msg)
        = (keys[j], quotaErrStatus keys[j] now msg)
          :: (keys.drop (j + 1)).map (fun k => (k, initStatus k)) := by
      simp [JsMap.set]
    rw [hsethead, stormStatuses, List.take_succ, List.getElem?_eq_getElem hj,
      List.map_append, List.append_assoc]
    rfl
  show reportError now msg true _ = _
  rw [reportError]
  simp only [stormState, hgetD, hgetj]
  show ({ apiKeys := keys,
          keyStatuses := JsMap.set (stormStatuses keys now msg j) keys[j]
            (quotaErrStatus keys[j] now msg),
          currentKeyIndex := j } : APIKeyManager) = _
  rw [hset]

/-- A middle storm step: fail key `j`, rotate to key `j + 1`. -/
theorem stormState_step (keys : List String) (now : Nat) (msg : String)
    (j : Nat) (hnd : keys.Nodup) (hj1 : j + 1 < keys.length) :
    stormStep now msg (stormState keys now msg j)
      = stormState keys now msg (j + 1) := by
  rw [stormStep, stormState_reportError keys now msg j hnd (by omega)]
  rw [rotateKey]
  have havail := stormStatuses_avail keys now msg (j + 1) j hnd
  simp only [havail]
  have hne : ¬ (keys.drop (j + 1)).isEmpty = true := by
    rw [List.isEmpty_iff]
    intro hnil
    have := List.length_drop (j + 1) keys
    rw [hnil] at this
    simp at this
    omega
  rw [if_neg hne]
  have hmod : (j + 1) % keys.length = j + 1 := Nat.mod_eq_of_lt hj1
  have hfuel : ∃ f, keys.length = f + 1 := ⟨keys.length - 1, by omega⟩
  rcases hfuel with ⟨f, hf⟩
  have hgetD : keys.getD (j + 1) "" = keys[j + 1] :=
    List.getD_eq_getElem _ _ hj1
  have hdropc : keys.drop (j + 1) = keys[j + 1] :: keys.drop (j + 2) :=
    List.drop_eq_getElem_cons hj1
  have hcont : (keys.drop (j + 1)).contains keys[j + 1] = true := by
    rw [contains_iff]
    rw [hdropc]
    exact List.mem_cons_self _ _
  show (match rotateLoop keys (keys.drop (j + 1)) ((j + 1) % keys.length)
      keys.length with
    | some (k, i) => ((some k : Option String),
        ({ apiKeys := keys, keyStatuses := stormStatuses keys now msg (j + 1),
           currentKeyIndex := i } : APIKeyManager))
    | none => ((none : Option String),
        ({ apiKeys := keys, keyStatuses := stormStatuses keys now msg (j + 1),
           currentKeyIndex := j } : APIKeyManager))).2 = _
  rw [hmod, hf, rotateLoop]
  rw [hgetD, hcont]
  simp [stormState]

/-- The final storm step: fail the last key; rotation finds nothing. -/
theorem stormState_last (keys : List String) (now : Nat) (msg : String)
    (hnd : keys.Nodup) (hne : keys ≠ []) :
    stormStep now msg (stormState keys now msg (keys.length - 1))
      = { apiKeys := keys,
          keyStatuses := stormStatuses keys now msg keys.length,
          currentKeyIndex := keys.length - 1 } := by
  have hlen : 0 < keys.length := List.length_pos.mpr hne
  have hj : keys.length - 1 < keys.length := by omega
  rw [stormStep, stormState_reportError keys now msg _ hnd hj]
  have heq : keys.length - 1 + 1 = keys.length := by omega
  rw [heq, rotateKey]
  have havail := stormStatuses_avail keys now msg keys.length
    (keys.length - 1) hnd
  simp only [havail]
  have hemp : (keys.drop keys.length).isEmpty = true := by
    rw [List.drop_length]
    rfl
  rw [if_pos hemp]

/-- After `j ≤ N` storm steps from a fresh pool, the first `j` keys are
exhausted (for `j < N` the pointer is at `j`; the last step leaves it at
`N - 1`). -/
theorem storm_iter_mid (keys : List String) (now : Nat) (msg : String)
    (hnd : keys.Nodup) :
    ∀ j, j < keys.length →
      stormIter now msg j (stormState keys now msg 0)
        = stormState keys now msg j := by
  intro j
  induction j with
  | zero => intro _; rfl
  | succ n ih =>
    intro hj
    show stormStep now msg (stormIter now msg n (stormState keys now msg 0)) = _
    rw [ih (by omega)]
    exact stormState_step keys now msg n hnd hj

/-- After `N` storm steps every key is exhausted. -/
theorem storm_iter_full (keys : List String) (now : Nat) (msg : String)
    (hnd : keys.Nodup) (hne : keys ≠ []) :
    stormIter now msg keys.length (stormState keys now msg 0)
      = { apiKeys := keys,
          keyStatuses := stormStatuses keys now msg keys.length,
          currentKeyIndex := keys.length - 1 } := by
  have hlen : 0 < keys.length := List.length_pos.mpr hne
  have hf : keys.length = (keys.length - 1) + 1 := by omega
  rw [hf]
  show stormStep now msg
      (stormIter now msg (keys.length - 1) (stormState keys now msg 0)) = _
  rw [storm_iter_mid keys now msg hnd _ (by omega), ← hf]
  exact stormState_last keys now msg hnd hne

/-- The constructor on a duplicate-free pool produces the fresh storm
state. -/
theorem make_eq_stormState (keys : List String) (now : Nat) (msg : String)
    (hne : keys ≠ []) (hnd : keys.Nodup) :
    make keys = some (stormState keys now msg 0) := by
  have hfold : ∀ (l : List String), l.Nodup →
      ∀ acc, (∀ k ∈ l, JsMap.get acc k = none) →
      l.foldl (fun ss k => JsMap.set ss k (initStatus k)) acc
        = acc ++ l.map (fun k => (k, initStatus k)) := by
    intro l
    induction l with
    | nil => intro _ acc _; simp
    | cons x xs ih =>
      intro hndl acc hacc
      simp only [List.foldl_cons]
      rw [jsset_eq_append_of_none acc x _ (hacc x (List.mem_cons_self _ _))]
      rw [ih (List.nodup_cons.mp hndl).2 _ (by
        intro k hk
        have hkx : x ≠ k := fun he =>
          (List.nodup_cons.mp hndl).1 (he ▸ hk)
        rw [jsget_append_of_none _ _ _ (hacc k (List.mem_cons_of_mem _ hk))]
        simp [JsMap.get, hkx])]
      simp [List.append_assoc]
  have hemp : ¬ keys.isEmpty = true := by
    rw [List.isEmpty_iff]
    exact hne
  rw [make, if_neg hemp]
  rw [hfold keys hnd [] (fun k _ => rfl)]
  rw [stormState, stormStatuses]
  simp

/-- `resetQuotaStatus` on the fully exhausted pool reactivates every key. -/
theorem storm_reset (keys : List String) (now : Nat) (msg : String) (i : Nat) :
    (getAvailableKeyCount now
        (resetQuotaStatus
          { apiKeys := keys,
            keyStatuses := stormStatuses keys now msg keys.length,
            currentKeyIndex := i })).1 = keys.length := by
  have hss : (resetQuotaStatus
      { apiKeys := keys,
        keyStatuses := stormStatuses keys now msg keys.length,
        currentKeyIndex := i }).keyStatuses
      = keys.map (fun k => (k, clearedStatus (quotaErrStatus k now msg))) := by
    show (stormStatuses keys now msg keys.length).map _ = _
    rw [stormStatuses, List.take_length, List.drop_length]
    simp only [List.map_nil, List.append_nil, List.map_map]
    apply List.map_congr_left
    intro a _
    simp [quotaErrStatus, Function.comp]
  have hstab := getAvailableKeysGo_stable now keys
    (keys.map (fun k => (k, clearedStatus (quotaErrStatus k now msg))))
    (by
      intro k hk st hget
      rw [jsget_map_self _ _ _, if_pos hk] at hget
      cases hget
      rw [availCheck_cleared_quotaErr])
  have hfilter : keys.filter (fun k =>
      match JsMap.get
          (keys.map (fun k => (k, clearedStatus (quotaErrStatus k now msg)))) k with
      | some st => (availCheck now st).1
      | none => false) = keys := by
    rw [List.filter_eq_self]
    intro a ha
    rw [jsget_map_self _ _ _, if_pos ha]
    simp [availCheck_cleared_quotaErr]
  show ((getAvailableKeys now _).1).length = _
  rw [getAvailableKeys]
  show ((getAvailableKeysGo now keys _).1).length = _
  rw [hss, hstab]
  simp [hfilter]

theorem getCurrentKey_keyStatuses (now : Nat) (m : APIKeyManager) :
    (getCurrentKey now m).2.keyStatuses
      = (getAvailableKeys now m).2.keyStatuses := by
  rcases havail : getAvailableKeys now m with ⟨avail, m1⟩
  simp only [getCurrentKey, havail]
  by_cases hemp : avail.isEmpty
  · rw [if_pos hemp]
  · rw [if_neg hemp]
    by_cases hcont : avail.contains (m1.apiKeys.getD m1.currentKeyIndex "")
    · rw [if_pos hcont]
    · rw [if_neg hcont]
      cases m1.apiKeys.findIdx? (fun k => avail.contains k) <;> rfl

theorem rotateKey_keyStatuses (now : Nat) (m : APIKeyManager) :
    (rotateKey now m).2.keyStatuses
      = (getAvailableKeys now m).2.keyStatuses := by
  rcases havail : getAvailableKeys now m with ⟨avail, m1⟩
  simp only [rotateKey, havail]
  by_cases hemp : avail.isEmpty
  · rw [if_pos hemp]
  · rw [if_neg hemp]
    cases hl : rotateLoop m1.apiKeys avail
        ((m1.currentKeyIndex + 1) % m1.apiKeys.length) m1.apiKeys.length with
    | none => rfl
    | some p => rcases p with ⟨k, i⟩; rfl

theorem getCurrentKey_none_of_avail_nil (now : Nat) (m m2 : APIKeyManager)
    (h : getAvailableKeys now m = ([], m2)) :
    getCurrentKey now m = (none, m2) := by
  simp [getCurrentKey, h]

/-- Claim C3: once a key is marked `quotaExhausted`, it is never returned
by `getCurrentKey` or `rotateKey`, at any time; `reportSuccess` and
`reportError` never clear the flag, and the availability side effects of
`getCurrentKey`/`rotateKey` leave the exhausted status untouched; only
`resetQuotaStatus` clears it, reactivating the key; a key with only
transient errors becomes available again once `now >= nextRetryTime`;
for a pool of N distinct keys, N consecutive quota failures (one per key,
rotating in between) make `getCurrentKey` return null, and a subsequent
`resetQuotaStatus` restores all N keys to available. -/
theorem C3_quota_exhaustion_invariant (m : APIKeyManager) (k : String)
    (st : KeyStatus) (now : Nat)
    (hget : JsMap.get m.keyStatuses k = some st)
    (hq : st.quotaExhausted = true) :
    ((getCurrentKey now m).1 ≠ some k ∧ (rotateKey now m).1 ≠ some k)
    ∧ ((JsMap.get (reportSuccess m).keyStatuses k).map
          (fun s => s.quotaExhausted) = some true
      ∧ (∀ (msg : String) (b : Bool),
          (JsMap.get (reportError now msg b m).keyStatuses k).map
            (fun s => s.quotaExhausted) = some true)
      ∧ JsMap.get (getCurrentKey now m).2.keyStatuses k = some st
      ∧ JsMap.get (rotateKey now m).2.keyStatuses k = some st)
    ∧ (JsMap.get (resetQuotaStatus m).keyStatuses k = some (clearedStatus st)
      ∧ (clearedStatus st).quotaExhausted = false
      ∧ (clearedStatus st).isActive = true
      ∧ (clearedStatus st).nextRetryTime = none)
    ∧ (∀ (k2 : String) (st2 : KeyStatus) (t : Nat),
        k2 ∈ m.apiKeys → JsMap.get m.keyStatuses k2 = some st2 →
        st2.quotaExhausted = false → st2.nextRetryTime = some t →
        0 < t → t ≤ now → k2 ∈ (getAvailableKeys now m).1)
    ∧ (∀ (keys : List String) (nw : Nat) (msg : String),
        keys ≠ [] → keys.Nodup →
        ∀ m0, make keys = some m0 →
          (getCurrentKey nw (stormIter nw msg keys.length m0)).1 = none
          ∧ (getAvailableKeyCount nw
              (resetQuotaStatus (stormIter nw msg keys.length m0))).1
            = keys.length) := by
  have hquota := getAvailableKeysGo_quota now k st hq m.apiKeys m.keyStatuses hget
  have havail1 : (getAvailableKeys now m).1
      = (getAvailableKeysGo now m.apiKeys m.keyStatuses).1 := rfl
  have havail2 : (getAvailableKeys now m).2.keyStatuses
      = (getAvailableKeysGo now m.apiKeys m.keyStatuses).2 := rfl
  refine ⟨⟨?_, ?_⟩, ⟨?_, ?_, ?_, ?_⟩, ⟨?_, rfl, rfl, rfl⟩, ?_, ?_⟩
  · intro hc
    exact hquota.1 (havail1 ▸ getCurrentKey_mem now m k hc)
  · intro hc
    exact hquota.1 (havail1 ▸ rotateKey_mem now m k hc)
  · rw [reportSuccess_quota_preserved, hget]
    simp [hq]
  · intro msg b
    exact reportError_quota_preserved m k st now msg b hget hq
  · rw [getCurrentKey_keyStatuses, havail2]
    exact hquota.2
  · rw [rotateKey_keyStatuses, havail2]
    exact hquota.2
  · rw [resetQuotaStatus_get, hget]
    simp [hq]
  · intro k2 st2 t hmem hget2 hq2 hnrt ht0 htn
    exact getAvailableKeysGo_transient_mem now k2 st2 t hq2 hnrt ht0 htn
      m.apiKeys m.keyStatuses hmem hget2
  · intro keys nw msg hne hnd m0 hmake
    rw [make_eq_stormState keys nw msg hne hnd] at hmake
    cases hmake
    rw [storm_iter_full keys nw msg hnd hne]
    constructor
    · have hav := stormStatuses_avail keys nw msg keys.length
        (keys.length - 1) hnd
      rw [List.drop_length] at hav
      rw [getCurrentKey_none_of_avail_nil nw _ _ hav]
    · exact storm_reset keys nw msg (keys.length - 1)

/-- A two-key pool whose second key is quota-exhausted, for the C3
witness. -/
def poolBexhausted : APIKeyManager :=
  { apiKeys := ["a", "b"],
    keyStatuses := [("a", initStatus "a"), ("b", quotaErrStatus "b" 7 "q")],
    currentKeyIndex := 0 }

/-- Witness for C3 at a concrete instance. -/
theorem C3_quota_exhaustion_invariant_witness :
    (getCurrentKey 999 poolBexhausted).1 ≠ some "b" :=
  (C3_quota_exhaustion_invariant poolBexhausted
    "b" (quotaErrStatus "b" 7 "q") 999 (by decide) (by decide)).1.1

/-- The fresh two-key pool produced by the constructor, for C4. -/
def freshAB : APIKeyManager :=
  { apiKeys := ["a", "b"],
    keyStatuses := [("a", initStatus "a"), ("b", initStatus "b")],
    currentKeyIndex := 0 }

/-- The state reached from `freshAB` by rotating to "b", reporting a quota
error against it, and letting `getCurrentKey` move the pointer back to
"a". -/
def poolOnlyCurrent : APIKeyManager :=
  (getCurrentKey 1000000
    (reportError 1000000 "quota" true ((rotateKey 1000000 freshAB).2))).2

/-- Counterexample to claim C4: in `poolOnlyCurrent` the only available key
is the current key "a" — no other key is available — yet `rotateKey`
returns "a" instead of the null the claim demands. -/
theorem C4_counterexample :
    make ["a", "b"] = some freshAB
    ∧ (getAvailableKeys 1000000 poolOnlyCurrent).1 = ["a"]
    ∧ poolOnlyCurrent.apiKeys.getD poolOnlyCurrent.currentKeyIndex "" = "a"
    ∧ (rotateKey 1000000 poolOnlyCurrent).1 = some "a" := by
  refine ⟨by decide, by decide, by decide, by decide⟩

/-- A failed rotation scan means every scanned slot held an unavailable
key. -/
theorem rotateLoop_none_all (keys avail : List String)
    (hlen : 0 < keys.length) :
    ∀ (f i : Nat), i < keys.length →
      rotateLoop keys avail i f = none →
      ∀ d, d < f →
        avail.contains (keys.getD ((i + d) % keys.length) "") = false := by
  intro f
  induction f with
  | zero => intro i _ _ d hd; omega
  | succ f ih =>
    intro i hi hnone d hd
    rw [rotateLoop] at hnone
    by_cases hc : avail.contains (keys.getD i "") = true
    · rw [if_pos hc] at hnone; cases hnone
    · rw [if_neg hc] at hnone
      cases d with
      | zero =>
        rw [Nat.add_zero, Nat.mod_eq_of_lt hi]
        exact Bool.not_eq_true _ ▸ (Bool.eq_false_iff.mpr hc)
      | succ d =>
        have hrec := ih ((i + 1) % keys.length) (Nat.mod_lt _ hlen) hnone d
          (by omega)
        rw [Nat.mod_add_mod] at hrec
        have : i + 1 + d = i + (d + 1) := by omega
        rw [this] at hrec
        exact hrec

/-- A successful rotation scan returns the first available slot, in cyclic
order from the start position. -/
theorem rotateLoop_some_spec (keys avail : List String)
    (hlen : 0 < keys.length) :
    ∀ (f i : Nat), i < keys.length →
      ∀ (k : String) (j : Nat), rotateLoop keys avail i f = some (k, j) →
        ∃ d, d < f ∧ j = (i + d) % keys.length ∧ k = keys.getD j ""
          ∧ avail.contains k = true
          ∧ ∀ e, e < d →
              avail.contains (keys.getD ((i + e) % keys.length) "") = false := by
  intro f
  induction f with
  | zero => intro i _ k j h; simp [rotateLoop] at h
  | succ f ih =>
    intro i hi k j h
    rw [rotateLoop] at h
    by_cases hc : avail.contains (keys.getD i "") = true
    · rw [if_pos hc] at h
      simp only [Option.some.injEq, Prod.mk.injEq] at h
      refine ⟨0, by omega, ?_, ?_, ?_, fun e he => by omega⟩
      · rw [Nat.add_zero, Nat.mod_eq_of_lt hi, h.2]
      · rw [← h.1, ← h.2]
      · rw [← h.1]; exact hc
    · rw [if_neg hc] at h
      rcases ih ((i + 1) % keys.length) (Nat.mod_lt _ hlen) k j h with
        ⟨d, hdf, hj, hk, hcont, hmin⟩
      refine ⟨d + 1, by omega, ?_, hk, hcont, ?_⟩
      · rw [hj, Nat.mod_add_mod]
        congr 1
        omega
      · intro e he
        cases e with
        | zero =>
          rw [Nat.add_zero, Nat.mod_eq_of_lt hi]
          exact Bool.eq_false_iff.mpr hc
        | succ e =>
          have := hmin e (by omega)
          rw [Nat.mod_add_mod] at this
          have harith : (i + 1) + e = i + (e + 1) := by omega
          rw [harith] at this
          exact this

/-- `rotateKey` returns null exactly when the whole pool is unavailable. -/
theorem rotateKey_none_iff (now : Nat) (m : APIKeyManager) :
    (rotateKey now m).1 = none ↔ (getAvailableKeys now m).1 = [] := by
  rcases havail : getAvailableKeys now m with ⟨avail, m1⟩
  have hkeys : m1.apiKeys = m.apiKeys := by
    have := getAvailableKeys_apiKeys now m
    rw [havail] at this
    exact this
  simp only [rotateKey, havail]
  constructor
  · intro h
    by_contra hne
    have hemp : ¬ avail.isEmpty = true := by
      rw [List.isEmpty_iff]; exact hne
    rw [if_neg hemp] at h
    have hnil : avail ≠ [] := hne
    have hhead : avail.head hnil ∈ avail := List.head_mem hnil
    have hmemk : avail.head hnil ∈ m.apiKeys := by
      have hsub := mem_of_getAvailableKeysGo now m.apiKeys m.keyStatuses
        (avail.head hnil)
      apply hsub
      have : (getAvailableKeysGo now m.apiKeys m.keyStatuses).1 = avail :=
        congrArg Prod.fst havail
      rw [this]
      exact hhead
    have hlen : 0 < m.apiKeys.length := List.length_pos.mpr
      (fun hnilk => by rw [hnilk] at hmemk; exact List.not_mem_nil _ hmemk)
    cases hl : rotateLoop m1.apiKeys avail
        ((m1.currentKeyIndex + 1) % m1.apiKeys.length) m1.apiKeys.length with
    | some p => rw [hl] at h; rcases p with ⟨k, i⟩; simp at h
    | none =>
      rcases List.mem_iff_getElem.mp hmemk with ⟨jx, hjx, hjeq⟩
      have hall := rotateLoop_none_all m1.apiKeys avail (hkeys ▸ hlen)
        m1.apiKeys.length ((m1.currentKeyIndex + 1) % m1.apiKeys.length)
        (Nat.mod_lt _ (hkeys ▸ hlen)) hl
      set start := (m1.currentKeyIndex + 1) % m1.apiKeys.length with hstart
      have hstartlt : start < m1.apiKeys.length := Nat.mod_lt _ (hkeys ▸ hlen)
      have hexists : ∃ d, d < m1.apiKeys.length
          ∧ (start + d) % m1.apiKeys.length = jx := by
        by_cases hge : start ≤ jx
        · refine ⟨jx - start, by rw [hkeys]; omega, ?_⟩
          have : start + (jx - start) = jx := by omega
          rw [this, Nat.mod_eq_of_lt (hkeys ▸ hjx)]
        · refine ⟨m1.apiKeys.length - start + jx, by rw [hkeys] at *; omega, ?_⟩
          have : start + (m1.apiKeys.length - start + jx)
              = m1.apiKeys.length + jx := by omega
          rw [this, Nat.add_mod_left, Nat.mod_eq_of_lt (hkeys ▸ hjx)]
      rcases hexists with ⟨d, hdlt, hdeq⟩
      have hfalse := hall d hdlt
      rw [hdeq] at hfalse
      have hgetd : m1.apiKeys.getD jx "" = m.apiKeys[jx] := by
        rw [hkeys]
        exact List.getD_eq_getElem _ _ hjx
      rw [hgetd, hjeq] at hfalse
      rw [(contains_iff _ _).mpr hhead] at hfalse
      cases hfalse
  · intro h
    subst h
    rfl

/-- A fully fresh pool with the rotation pointer at `i`. -/
def freshStateAt (keys : List String) (i : Nat) : APIKeyManager :=
  { apiKeys := keys,
    keyStatuses := keys.map (fun k => (k, initStatus k)),
    currentKeyIndex := i }

theorem fresh_avail (now : Nat) (keys : List String) (i : Nat) :
    getAvailableKeys now (freshStateAt keys i) = (keys, freshStateAt keys i) := by
  have hstab := getAvailableKeysGo_stable now keys
    (keys.map (fun k => (k, initStatus k)))
    (by
      intro k hk st hget
      rw [jsget_map_self _ _ _, if_pos hk] at hget
      cases hget
      rw [availCheck_initStatus])
  have hfilter : keys.filter (fun k =>
      match JsMap.get (keys.map (fun k => (k, initStatus k))) k with
      | some st => (availCheck now st).1
      | none => false) = keys := by
    rw [List.filter_eq_self]
    intro a ha
    rw [jsget_map_self _ _ _, if_pos ha]
    simp [availCheck_initStatus]
  simp only [getAvailableKeys, freshStateAt, hstab, hfilter]

/-- Unfolding of the rotation scan at successor fuel. -/
theorem rotateLoop_unfold_succ (keys avail : List String) (i f : Nat) :
    rotateLoop keys avail i (f + 1)
      = if avail.contains (keys.getD i "") = true
        then some (keys.getD i "", i)
        else rotateLoop keys avail ((i + 1) % keys.length) f := rfl

theorem fresh_rotate (now : Nat) (keys : List String) (hne : keys ≠ [])
    (i : Nat) :
    rotateKey now (freshStateAt keys i)
      = (some (keys.getD ((i + 1) % keys.length) ""),
         freshStateAt keys ((i + 1) % keys.length)) := by
  have hlen : 0 < keys.length := List.length_pos.mpr hne
  have hmod : (i + 1) % keys.length < keys.length := Nat.mod_lt _ hlen
  have hgetd : keys.getD ((i + 1) % keys.length) ""
      = keys[(i + 1) % keys.length] := List.getD_eq_getElem _ _ hmod
  have hcont : keys.contains (keys.getD ((i + 1) % keys.length) "") = true := by
    rw [contains_iff, hgetd]
    exact List.getElem_mem hmod
  obtain ⟨f, hf⟩ : ∃ f, keys.length = f + 1 := ⟨keys.length - 1, by omega⟩
  rw [rotateKey]
  simp only [fresh_avail]
  have hemp : ¬ keys.isEmpty = true := by
    rw [List.isEmpty_iff]; exact hne
  rw [if_neg hemp]
  show (match rotateLoop keys keys ((i + 1) % keys.length) keys.length with
    | some (k, i2) => ((some k : Option String),
        ({ apiKeys := keys, keyStatuses := keys.map (fun k => (k, initStatus k)),
           currentKeyIndex := i2 } : APIKeyManager))
    | none => ((none : Option String), freshStateAt keys i)) = _
  rw [hf] at hcont ⊢
  rw [rotateLoop_unfold_succ, hcont]
  simp [freshStateAt]

/-- The sequence of keys produced by repeated `rotateKey` calls. -/
def rotateOutputs (now : Nat) : Nat → APIKeyManager →
    List (Option String) × APIKeyManager
  | 0, m => ([], m)
  | n + 1, m =>
    let p := rotateKey now m
    let q := rotateOutputs now n p.2
    (p.1 :: q.1, q.2)

theorem fresh_rotateOutputs (now : Nat) (keys : List String) (hne : keys ≠ []) :
    ∀ (c i : Nat),
      (rotateOutputs now c (freshStateAt keys i)).1
        = (List.range c).map
            (fun d => some (keys.getD ((i + 1 + d) % keys.length) "")) := by
  intro c
  induction c with
  | zero => intro i; rfl
  | succ n ih =>
    intro i
    show ((rotateKey now (freshStateAt keys i)).1
        :: (rotateOutputs now n (rotateKey now (freshStateAt keys i)).2).1) = _
    rw [fresh_rotate now keys hne i]
    simp only
    rw [ih ((i + 1) % keys.length)]
    rw [List.range_succ_eq_map, List.map_cons, List.map_map]
    have htail : (List.range n).map
        (fun d => some (keys.getD
          (((i + 1) % keys.length + 1 + d) % keys.length) ""))
        = (List.range n).map
          ((fun d => some (keys.getD ((i + 1 + d) % keys.length) ""))
            ∘ Nat.succ) := by
      apply List.map_congr_left
      intro d _
      simp only [Function.comp_apply]
      have h1 : (i + 1) % keys.length + 1 + d
          = (i + 1) % keys.length + (1 + d) := by omega
      rw [h1, Nat.mod_add_mod]
      have h2 : i + 1 + (1 + d) = i + 1 + Nat.succ d := by omega
      rw [h2]
    rw [htail]

/-- After exactly `N` rotations from slot 0 on a fresh pool, the visited
keys are `keys.rotate 1`: each key exactly once before repeating. -/
theorem fresh_roundRobin (now : Nat) (keys : List String) (hne : keys ≠ []) :
    (rotateOutputs now keys.length (freshStateAt keys 0)).1
      = (keys.rotate 1).map some := by
  have hlen : 0 < keys.length := List.length_pos.mpr hne
  rw [fresh_rotateOutputs now keys hne keys.length 0]
  apply List.ext_getElem
  · simp [List.length_rotate]
  · intro d h1 h2
    have hdlen : d < keys.length := by simpa using h1
    have hd2 : d < (keys.rotate 1).length := by
      simpa [List.length_rotate] using hdlen
    simp only [List.getElem_map, List.getElem_range]
    have hmodlt : (d + 1) % keys.length < keys.length := Nat.mod_lt _ hlen
    have hrot : (keys.rotate 1)[d] = keys[(d + 1) % keys.length] := by
      have := List.get_rotate keys 1 ⟨d, hd2⟩
      simpa using this
    rw [hrot]
    have hidx : 0 + 1 + d = d + 1 := by omega
    rw [hidx]
    rw [List.getD_eq_getElem _ _ hmodlt]

/-- Claim C4 as amended: `rotateKey` scans in round-robin order starting
just after the current position and returns the first available key found
— wrapping around up to and including the current position, so when the
only available key is the current one it returns the current key rather
than null; it returns null exactly when no key at all is available; with
all N distinct keys available and starting from index 0, N successive
calls visit every key exactly once (`keys.rotate 1`) before repeating. -/
theorem C4_rotation_roundRobin (now : Nat) (m : APIKeyManager) :
    ((rotateKey now m).1 = none ↔ (getAvailableKeys now m).1 = [])
    ∧ (∀ k, (rotateKey now m).1 = some k → k ∈ (getAvailableKeys now m).1)
    ∧ (∀ (k : String) (m2 : APIKeyManager), rotateKey now m = (some k, m2) →
        ∃ d, d < m.apiKeys.length
          ∧ m2.currentKeyIndex
            = (m.currentKeyIndex + 1 + d) % m.apiKeys.length
          ∧ k = m.apiKeys.getD m2.currentKeyIndex ""
          ∧ (getAvailableKeys now m).1.contains k = true
          ∧ ∀ e, e < d →
              (getAvailableKeys now m).1.contains
                (m.apiKeys.getD
                  ((m.currentKeyIndex + 1 + e) % m.apiKeys.length) "")
                = false)
    ∧ ((getAvailableKeys now m).1 = [m.apiKeys.getD m.currentKeyIndex ""] →
        (rotateKey now m).1 = some (m.apiKeys.getD m.currentKeyIndex ""))
    ∧ (∀ (keys : List String), keys ≠ [] → keys.Nodup →
        ∀ m0, make keys = some m0 →
          (rotateOutputs now keys.length m0).1 = (keys.rotate 1).map some
          ∧ (keys.rotate 1).Perm keys) := by
  refine ⟨rotateKey_none_iff now m, fun k => rotateKey_mem now m k, ?_, ?_, ?_⟩
  · intro k m2 h
    rcases havail : getAvailableKeys now m with ⟨avail, m1⟩
    have hkeys : m1.apiKeys = m.apiKeys := by
      have := getAvailableKeys_apiKeys now m
      rw [havail] at this; exact this
    have hidx : m1.currentKeyIndex = m.currentKeyIndex := by
      have := getAvailableKeys_currentKeyIndex now m
      rw [havail] at this; exact this
    simp only [rotateKey, havail] at h
    by_cases hemp : avail.isEmpty
    · rw [if_pos hemp] at h
      cases h
    · rw [if_neg hemp] at h
      have hnil : avail ≠ [] := fun hn => hemp (by simp [hn])
      have hmemk : avail.head hnil ∈ m.apiKeys := by
        apply mem_of_getAvailableKeysGo now m.apiKeys m.keyStatuses
        have : (getAvailableKeysGo now m.apiKeys m.keyStatuses).1 = avail :=
          congrArg Prod.fst havail
        rw [this]
        exact List.head_mem hnil
      have hlen : 0 < m.apiKeys.length := List.length_pos.mpr
        (fun hk0 => by rw [hk0] at hmemk; exact List.not_mem_nil _ hmemk)
      cases hl : rotateLoop m1.apiKeys avail
          ((m1.currentKeyIndex + 1) % m1.apiKeys.length) m1.apiKeys.length with
      | none => rw [hl] at h; cases h
      | some p =>
        rw [hl] at h
        rcases p with ⟨k0, i0⟩
        simp only [Prod.mk.injEq, Option.some.injEq] at h
        rcases rotateLoop_some_spec m1.apiKeys avail (hkeys ▸ hlen)
            m1.apiKeys.length ((m1.currentKeyIndex + 1) % m1.apiKeys.length)
            (Nat.mod_lt _ (hkeys ▸ hlen)) k0 i0 hl with
          ⟨d, hdf, hj, hk0, hcont, hmin⟩
        refine ⟨d, by rw [← hkeys]; exact hdf, ?_, ?_, ?_, ?_⟩
        · rw [← h.2]
          show ({ m1 with currentKeyIndex := i0 }
            : APIKeyManager).currentKeyIndex = _
          rw [hj, Nat.mod_add_mod, ← hkeys, ← hidx]
        · rw [← h.1, hk0, ← h.2, hkeys]
        · rw [← h.1]; exact hcont
        · intro e he
          have := hmin e he
          rw [Nat.mod_add_mod, hkeys, hidx] at this
          exact this
  · intro h
    cases hr : (rotateKey now m).1 with
    | none =>
      exfalso
      have := (rotateKey_none_iff now m).mp hr
      rw [h] at this
      cases this
    | some k =>
      have hmem := rotateKey_mem now m k hr
      rw [h] at hmem
      rcases List.mem_singleton.mp hmem with heq
      rw [heq]
  · intro keys hne hnd m0 hmake
    rw [make_eq_stormState keys 0 "" hne hnd] at hmake
    have hm0 : m0 = stormState keys 0 "" 0 := by
      cases hmake; rfl
    subst hm0
    exact ⟨fresh_roundRobin now keys hne, List.rotate_perm keys 1⟩

/-- Witness for C4 at a concrete instance: two fresh keys, two rotations
visit "b" then "a". -/
theorem C4_rotation_roundRobin_witness :
    (rotateOutputs 5 2 freshAB).1 = [some "b", some "a"] := by
  have h := ((C4_rotation_roundRobin 5 freshAB).2.2.2.2
    ["a", "b"] (by decide) (by decide) freshAB (by decide)).1
  have h2 : (rotateOutputs 5 2 freshAB).1
      = (["a", "b"].rotate 1).map some := h
  rw [h2]
  decide

/-!
Claims about the client (`YouTubeAPIClient`).
-/

open YouTubeAPIClient

/-- Any error exit of the bridge branch leaves the cache untouched (the
only cache write happens on its success path). -/
theorem viaService_error_cache (env : Env) (ck : String) (now : Nat)
    (c : APICache) (e : APIError)
    (h : (searchChannelsViaService env ck now c).res = Except.error e) :
    (searchChannelsViaService env ck now c).cache = c := by
  unfold searchChannelsViaService at h ⊢
  cases hb : env.bridgeSearch with
  | error e2 => simp [hb]
  | ok rs =>
    simp only [hb] at h ⊢
    by_cases hemp : rs.isEmpty
    · simp [hemp] at h
    · simp only [hemp, Bool.false_eq_true, if_false] at h ⊢
      rcases hgv : getVideoDetails env (jsDedup (rs.map fun r => r.videoId)) with
        ⟨r1, n1⟩
      simp only [hgv] at h ⊢
      cases r1 with
      | error e1 => rfl
      | ok videoDetails =>
        simp only at h ⊢
        by_cases hch : (jsDedup (videoDetails.map fun v => v.channelId)).isEmpty
        · simp [hch] at h
        · simp only [hch, Bool.false_eq_true, if_false] at h ⊢
          rcases hgc : getChannelsByIds env
              (jsDedup (videoDetails.map fun v => v.channelId)) with ⟨r2, n2⟩
          simp only [hgc] at h ⊢
          cases r2 with
          | error e2 => rfl
          | ok channels => simp at h

/-- Claim C6: if the bridge health probe reports unhealthy, or any step of
the bridge branch throws, `searchChannels` falls through to the native
provider search; a bridge-originated failure is never surfaced — any error
`searchChannels` returns is either the empty-query validation error or the
native path's own error. -/
theorem C6_bridge_graceful_degradation (env : Env) (cfg : ClientConfig)
    (query : String) (now : Nat) (cache : APICache)
    (hs : cfg.hasSearchService = true) (hu : cfg.useSearchService = true)
    (hq : ¬ jsTrim query = "")
    (hmiss : (APICache.getVideos now ("search:" ++ jsTrim (jsToLower query)) cache).1
      = none) :
    (env.isHealthy = false →
      searchChannels env cfg query now cache
        = searchChannelsViaAPI env ("search:" ++ jsTrim (jsToLower query)) now
            (APICache.getVideos now ("search:" ++ jsTrim (jsToLower query)) cache).2)
    ∧ (∀ e : APIError,
        (searchChannelsViaService env ("search:" ++ jsTrim (jsToLower query)) now
          (APICache.getVideos now ("search:" ++ jsTrim (jsToLower query)) cache).2).res
          = Except.error e →
        (searchChannels env cfg query now cache).res
          = (searchChannelsViaAPI env ("search:" ++ jsTrim (jsToLower query)) now
              (APICache.getVideos now ("search:" ++ jsTrim (jsToLower query)) cache).2).res)
    ∧ (∀ e : APIError,
        (searchChannels env cfg query now cache).res = Except.error e →
        e = createAPIError 400 "Search query cannot be empty"
            "Please enter a channel name to search" false
        ∨ (searchChannelsViaAPI env ("search:" ++ jsTrim (jsToLower query)) now
            (APICache.getVideos now ("search:" ++ jsTrim (jsToLower query)) cache).2).res
          = Except.error e) := by
  rcases hget : APICache.getVideos now ("search:" ++ jsTrim (jsToLower query)) cache
    with ⟨r0, cache1⟩
  have hr0 : r0 = none := by rw [← hmiss, hget]
  subst hr0
  have hmain : searchChannels env cfg query now cache
      = (if env.isHealthy then
          match searchChannelsViaService env ("search:" ++ jsTrim (jsToLower query))
            now cache1 with
          | { res := .ok cs, cache := cache2, calls := n } =>
            { res := .ok cs, cache := cache2, calls := n }
          | { res := .error _, cache := cache2, calls := n } =>
            let s := searchChannelsViaAPI env ("search:" ++ jsTrim (jsToLower query))
              now cache2
            { res := s.res, cache := s.cache, calls := n + s.calls }
        else searchChannelsViaAPI env ("search:" ++ jsTrim (jsToLower query)) now
          cache1) := by
    unfold searchChannels
    rw [if_neg hq]
    simp only [hget, hs, hu, Bool.and_self, if_true]
  refine ⟨?_, ?_, ?_⟩
  · intro hh
    rw [hmain, hh]
    rfl
  · intro e he
    have hc2 := viaService_error_cache env _ now cache1 e he
    rw [hmain]
    by_cases hh : env.isHealthy
    · rw [if_pos hh]
      rcases hsvc : searchChannelsViaService env
          ("search:" ++ jsTrim (jsToLower query)) now cache1 with ⟨rs, c2, n⟩
      rw [hsvc] at he hc2
      simp only at he hc2
      subst he
      subst hc2
      simp [hsvc]
    · rw [if_neg hh]
  · intro e he
    rw [hmain] at he
    by_cases hh : env.isHealthy
    · rw [if_pos hh] at he
      rcases hsvc : searchChannelsViaService env
          ("search:" ++ jsTrim (jsToLower query)) now cache1 with ⟨rs, c2, n⟩
      rw [hsvc] at he
      cases rs with
      | ok cs => simp at he
      | error e1 =>
        have hc2 := viaService_error_cache env _ now cache1 e1
          (by rw [hsvc])
        rw [hsvc] at hc2
        simp only at hc2 he
        subst hc2
        exact Or.inr he
    · rw [if_neg hh] at he
      exact Or.inr he

/-- A client configuration with the bridge configured and enabled. -/
def cfgBridge : ClientConfig := { hasSearchService := true }

/-- An environment whose bridge is down and whose native search returns no
hits, for the C6 witness. -/
def envBridgeDown : Env :=
  { isHealthy := false
    bridgeSearch := .error (.other "bridge down")
    videosEndpoint := fun _ => .error (.other "unused")
    channelsEndpoint := fun _ => .error (.other "unused")
    searchEndpoint := .ok (some ⟨true, true, []⟩)
    playlistEndpoint := fun _ _ => .error (.other "unused") }

/-- Witness for C6 at a concrete instance: with the bridge unhealthy, the
search is exactly the native path. -/
theorem C6_bridge_graceful_degradation_witness :
    searchChannels envBridgeDown cfgBridge "q" 1000 APICache.make
      = searchChannelsViaAPI envBridgeDown "search:q" 1000 APICache.make := by
  exact (C6_bridge_graceful_degradation envBridgeDown cfgBridge "q" 1000
    APICache.make rfl rfl (by decide) rfl).1 (by decide)

/-- Modelled from the spec (comparison definition for C7): the maximum
confidence score among the hits whose video resolves to the given channel
(0 when none does). -/
def specMaxConfidence (hits : List SearchResult) (videos : List Video)
    (channelId : String) : ℚ :=
  ((hits.filter fun h =>
      (videos.find? (fun v => v.id = h.videoId)).elim false
        (fun v => v.channelId = channelId)).map
    (fun h => h.confidence)).foldr max 0

/-- Thumbnails used by the concrete search scenarios. -/
def plainThumbs : Thumbnails := { defaultUrl := "d", medium := none, high := none }

/-- A bridge hit referencing video `vid` with the given confidence. -/
def mkHit (vid : String) (conf : ℚ) : SearchResult :=
  { id := "x", title := "x", thumbnailUrl := "t", videoId := vid,
    videoTitle := "vt", confidence := conf }

/-- A `/videos` item for video `vid` owned by channel `ch`. -/
def mkVideoItem (vid ch : String) : YouTubeVideoItem :=
  { id := vid, title := vid, thumbnails := plainThumbs, channelId := ch,
    channelTitle := ch, publishedAt := 0, duration := "PT1M",
    description := "" }

/-- A `/channels` item for channel `ch`. -/
def mkChannelItem (ch : String) : YouTubeChannelItem :=
  { id := ch, title := ch, thumbnails := plainThumbs,
    subscriberCount := "5", uploadsPlaylistId := "UU" ++ ch }

/-- A well-formed response carrying `items`. -/
def okItems {T : Type} (items : List T) : Option (APIResponse T) :=
  some { hasItems := true, itemsIsArray := true, items := items }

/-- The environment of the C7 scenarios: videos "v" and "w" belong to
channels "A" and "B" respectively; the bridge hits vary per scenario. -/
def envRanked (hits : List SearchResult) : Env :=
  { isHealthy := true
    bridgeSearch := .ok hits
    videosEndpoint := fun ids =>
      .ok (okItems (ids.map fun i => mkVideoItem i (if i = "v" then "A" else "B")))
    channelsEndpoint := fun ids => .ok (okItems (ids.map mkChannelItem))
    searchEndpoint := .ok (okItems ([] : List YouTubeChannelSearchItem))
    playlistEndpoint := fun _ _ => .ok (okItems ([] : List YouTubePlaylistItem)) }

/-- Counterexample to claim C7: with hits
`[{v, 0.3}, {w, 0.5}, {v, 0.9}]` (videos v, w resolving to channels A, B),
the maximum confidence among hits resolving to A is 0.9 > 0.5, so the
claim ranks A first — but the code takes the confidence of the FIRST hit
per video id (`find`), giving A the score 0.3 and returning B before A. -/
theorem C7_counterexample :
    ((searchChannelsViaService
        (envRanked [mkHit "v" (mkRat 3 10), mkHit "w" (mkRat 5 10),
          mkHit "v" (mkRat 9 10)])
        "search:q" 1000 APICache.make).res.toOption.map (List.map Channel.id)
      = some ["B", "A"])
    ∧ specMaxConfidence [mkHit "v" (mkRat 3 10), mkHit "w" (mkRat 5 10), mkHit "v" (mkRat 9 10)]
        [mapVideoItem (mkVideoItem "v" "A"), mapVideoItem (mkVideoItem "w" "B")]
        "A" = mkRat 9 10
    ∧ specMaxConfidence [mkHit "v" (mkRat 3 10), mkHit "w" (mkRat 5 10), mkHit "v" (mkRat 9 10)]
        [mapVideoItem (mkVideoItem "v" "A"), mapVideoItem (mkVideoItem "w" "B")]
        "B" = mkRat 5 10
    ∧ (mkRat 5 10 < mkRat 9 10) := by
  refine ⟨by decide, by decide, by decide, by decide⟩

theorem insertDesc_perm {α : Type} (key : α → ℚ) (x : α) :
    ∀ l : List α, (insertDesc key x l).Perm (x :: l) := by
  intro l
  induction l with
  | nil => exact List.Perm.refl _
  | cons y ys ih =>
    by_cases h : key y < key x
    · simp only [insertDesc, h, if_true]
      exact List.Perm.refl _
    · simp only [insertDesc, h, if_false]
      exact (ih.cons y).trans (List.Perm.swap x y ys)

theorem sortDesc_perm_aux {α : Type} (key : α → ℚ) :
    ∀ (l acc : List α),
      (l.foldl (fun acc x => insertDesc key x acc) acc).Perm (acc ++ l) := by
  intro l
  induction l with
  | nil => intro acc; simp
  | cons x xs ih =>
    intro acc
    simp only [List.foldl_cons]
    exact ((ih (insertDesc key x acc)).trans
      (((insertDesc_perm key x acc).append_right xs).trans List.perm_middle.symm))

theorem sortDesc_perm {α : Type} (key : α → ℚ) (l : List α) :
    (sortDesc key l).Perm l := by
  simpa using sortDesc_perm_aux key l []

theorem insertDesc_sorted {α : Type} (key : α → ℚ) (x : α) :
    ∀ l : List α, l.Sorted (fun a b => key b ≤ key a) →
      (insertDesc key x l).Sorted (fun a b => key b ≤ key a) := by
  intro l
  induction l with
  | nil => intro _; simp [insertDesc]
  | cons y ys ih =>
    intro hs
    rcases List.sorted_cons.mp hs with ⟨hy, hys⟩
    by_cases h : key y < key x
    · simp only [insertDesc, h, if_true]
      refine List.sorted_cons.mpr ⟨?_, hs⟩
      intro z hz
      rcases List.mem_cons.mp hz with h1 | h1
      · rw [h1]; exact le_of_lt h
      · exact le_trans (hy z h1) (le_of_lt h)
    · simp only [insertDesc, h, if_false]
      refine List.sorted_cons.mpr ⟨?_, ih hys⟩
      intro z hz
      have hz2 : z ∈ x :: ys := (insertDesc_perm key x ys).mem_iff.mp hz
      rcases List.mem_cons.mp hz2 with h1 | h1
      · rw [h1]; exact not_lt.mp h
      · exact hy z h1

theorem sortDesc_sorted_aux {α : Type} (key : α → ℚ) :
    ∀ (l acc : List α), acc.Sorted (fun a b => key b ≤ key a) →
      (l.foldl (fun acc x => insertDesc key x acc) acc).Sorted
        (fun a b => key b ≤ key a) := by
  intro l
  induction l with
  | nil => intro acc h; exact h
  | cons x xs ih =>
    intro acc h
    simp only [List.foldl_cons]
    exact ih (insertDesc key x acc) (insertDesc_sorted key x acc h)

theorem sortDesc_sorted {α : Type} (key : α → ℚ) (l : List α) :
    (sortDesc key l).Sorted (fun a b => key b ≤ key a) :=
  sortDesc_sorted_aux key l [] (by simp)

/-- Claim C7 as amended: in the bridge search path the returned channels
are the fetched channels stably sorted in descending order of the code's
relevance key — for each channel, the maximum over its resolved videos of
the confidence of the FIRST bridge hit carrying that video's id (not the
maximum over all hits); the spec's own example (hits 0.9/0.5/0.3 with the
duplicate's first occurrence highest) still ranks A's channel ahead of
B's, and equal-confidence ties keep discovery order. -/
theorem C7_confidence_ranking (env : Env) (ck : String) (now : Nat)
    (cache : APICache) (hits : List SearchResult) (vids : List Video)
    (chans : List Channel) (n1 n2 : Nat)
    (hb : env.bridgeSearch = .ok hits)
    (hne : hits.isEmpty = false)
    (hdet : getVideoDetails env (jsDedup (hits.map fun r => r.videoId))
      = (.ok vids, n1))
    (hchne : (jsDedup (vids.map fun v => v.channelId)).isEmpty = false)
    (hch : getChannelsByIds env (jsDedup (vids.map fun v => v.channelId))
      = (.ok chans, n2)) :
    ((searchChannelsViaService env ck now cache).res
      = .ok (sortDesc (fun c => relevanceOf (relevanceFold hits vids []) c.id)
          chans))
    ∧ (sortDesc (fun c => relevanceOf (relevanceFold hits vids []) c.id)
        chans).Perm chans
    ∧ (sortDesc (fun c => relevanceOf (relevanceFold hits vids []) c.id)
        chans).Sorted
        (fun a b => relevanceOf (relevanceFold hits vids []) b.id
          ≤ relevanceOf (relevanceFold hits vids []) a.id)
    ∧ ((searchChannelsViaService
        (envRanked [mkHit "v" (mkRat 9 10), mkHit "w" (mkRat 5 10),
          mkHit "v" (mkRat 3 10)])
        "search:q" 1000 APICache.make).res.toOption.map (List.map Channel.id)
      = some ["A", "B"])
    ∧ ((searchChannelsViaService
        (envRanked [mkHit "v" (mkRat 5 10), mkHit "w" (mkRat 5 10)])
        "search:q" 1000 APICache.make).res.toOption.map (List.map Channel.id)
      = some ["A", "B"]) := by
  refine ⟨?_, sortDesc_perm _ chans, sortDesc_sorted _ chans, by decide,
    by decide⟩
  unfold searchChannelsViaService
  rw [hb]
  simp only [hne, Bool.false_eq_true, if_false, hdet, hchne, hch]

/-- Witness for C7 at a concrete instance: the counterexample scenario,
where the output is a permutation of the two fetched channels. -/
theorem C7_confidence_ranking_witness :
    (sortDesc (fun c => relevanceOf
        (relevanceFold
          [mkHit "v" (mkRat 3 10), mkHit "w" (mkRat 5 10),
            mkHit "v" (mkRat 9 10)]
          [mapVideoItem (mkVideoItem "v" "A"), mapVideoItem (mkVideoItem "w" "B")]
          []) c.id)
      [mapChannelItem (mkChannelItem "A"), mapChannelItem (mkChannelItem "B")]).Perm
      [mapChannelItem (mkChannelItem "A"), mapChannelItem (mkChannelItem "B")] := by
  exact (C7_confidence_ranking
    (envRanked [mkHit "v" (mkRat 3 10), mkHit "w" (mkRat 5 10),
      mkHit "v" (mkRat 9 10)])
    "search:q" 1000 APICache.make
    [mkHit "v" (mkRat 3 10), mkHit "w" (mkRat 5 10), mkHit "v" (mkRat 9 10)]
    [mapVideoItem (mkVideoItem "v" "A"), mapVideoItem (mkVideoItem "w" "B")]
    [mapChannelItem (mkChannelItem "A"), mapChannelItem (mkChannelItem "B")]
    1 1 rfl rfl rfl rfl rfl).2.1

/-- An environment whose bridge search succeeds with zero hits and whose
native search returns a well-formed response with zero items. -/
def envZeroHits : Env :=
  { isHealthy := true
    bridgeSearch := .ok []
    videosEndpoint := fun _ => .error (.other "unused")
    channelsEndpoint := fun _ => .error (.other "unused")
    searchEndpoint := .ok (some ⟨true, true, []⟩)
    playlistEndpoint := fun _ _ => .error (.other "unused") }

/-- A configuration without the bridge search service: `searchChannels`
always takes the native path. -/
def cfgNative : ClientConfig := { hasSearchService := false }

/-- Counterexample to claim C8: a query yielding zero hits returns an
empty result set, but searchChannelsViaService returns before the
cache-write line, so nothing is stored under the query cache key (the
cache is returned unchanged and holds no entry); on the native path the
zero-item search likewise skips the cache write, so repeating the same
query issues one further provider call instead of being served from the
cache. -/
theorem C8_counterexample :
    (searchChannels envZeroHits cfgBridge "q" 1000 APICache.make
      = ⟨.ok [], APICache.make, 0⟩)
    ∧ JsMap.get (searchChannels envZeroHits cfgBridge "q" 1000
        APICache.make).cache.videoCache "search:q" = none
    ∧ (searchChannels envZeroHits cfgNative "q" 1000 APICache.make
        = ⟨.ok [], APICache.make, 1⟩)
    ∧ (searchChannels envZeroHits cfgNative "q" 1000
        (searchChannels envZeroHits cfgNative "q" 1000 APICache.make).cache).calls
      = 1 :=
  ⟨rfl, rfl, rfl, rfl⟩

theorem viaService_zero_hits (env : Env) (ck : String) (now : Nat)
    (cache : APICache) (h : env.bridgeSearch = .ok []) :
    searchChannelsViaService env ck now cache = ⟨.ok [], cache, 0⟩ := by
  simp [searchChannelsViaService, h]

theorem viaAPI_zero_items (env : Env) (ck : String) (now : Nat)
    (cache : APICache) (resp : Option (APIResponse YouTubeChannelSearchItem))
    (h : env.searchEndpoint = .ok resp)
    (hv : validateItems resp = .ok []) :
    searchChannelsViaAPI env ck now cache = ⟨.ok [], cache, 1⟩ := by
  simp [searchChannelsViaAPI, h, hv]

/-- C8 (corrected): zero-hit searches return an empty result but do NOT
cache it. (i) Zero bridge hits make searchChannelsViaService return
`.ok []` with the cache unchanged and no provider call; (ii) a zero-item
native search makes searchChannelsViaAPI return `.ok []` with the cache
unchanged after its single provider call; (iii) on a cache miss with the
native path, the full searchChannels returns `.ok []` with the cache
unchanged and one provider call, and (iv) repeating the same query on the
resulting cache issues one provider call again — the empty result was not
cached, contradicting the claim. -/
theorem C8_zero_hits_not_cached (env : Env) (cfg : ClientConfig)
    (ck : String) (now : Nat) (cache : APICache) :
    (env.bridgeSearch = .ok [] →
      searchChannelsViaService env ck now cache = ⟨.ok [], cache, 0⟩)
    ∧ (∀ resp, env.searchEndpoint = .ok resp → validateItems resp = .ok [] →
        searchChannelsViaAPI env ck now cache = ⟨.ok [], cache, 1⟩)
    ∧ (∀ query resp, jsTrim query ≠ "" →
        JsMap.get cache.videoCache ("search:" ++ jsTrim (jsToLower query)) = none →
        cfg.hasSearchService = false →
        env.searchEndpoint = .ok resp → validateItems resp = .ok [] →
        searchChannels env cfg query now cache = ⟨.ok [], cache, 1⟩
        ∧ (searchChannels env cfg query now
            (searchChannels env cfg query now cache).cache).calls = 1) := by
  refine ⟨viaService_zero_hits env ck now cache,
    fun resp h hv => viaAPI_zero_items env ck now cache resp h hv, ?_⟩
  intro query resp hq hmiss hns h hv
  have hget : APICache.getVideos now ("search:" ++ jsTrim (jsToLower query)) cache
      = (none, cache) := by
    simp [APICache.getVideos, hmiss]
  have hone : searchChannels env cfg query now cache = ⟨.ok [], cache, 1⟩ := by
    simp only [searchChannels]
    rw [if_neg hq]
    rw [hget]
    simp only [hns, Bool.false_and, Bool.false_eq_true, if_false]
    exact viaAPI_zero_items env _ now cache resp h hv
  refine ⟨hone, ?_⟩
  rw [hone]
  rw [hone]

/-- Witness for C8 at a concrete instance: the zero-hit environment with
an empty cache, bridge and native paths. -/
theorem C8_zero_hits_not_cached_witness :
    (searchChannelsViaService envZeroHits "search:q" 1000 APICache.make
      = ⟨.ok [], APICache.make, 0⟩)
    ∧ (searchChannels envZeroHits cfgNative "q" 1000 APICache.make
        = ⟨.ok [], APICache.make, 1⟩) := by
  refine ⟨(C8_zero_hits_not_cached envZeroHits cfgNative "search:q" 1000
    APICache.make).1 rfl, ?_⟩
  exact ((C8_zero_hits_not_cached envZeroHits cfgNative "search:q" 1000
    APICache.make).2.2 "q" (some ⟨true, true, []⟩) (by decide) rfl rfl rfl rfl).1


/-- The upstream quota-exhaustion signal: an HTTP 403 whose body message
contains "quota". -/
def quotaErr403 : JsError :=
  .axiosStatus 403 (some "quotaExceeded: The request cannot be completed because you have exceeded your quota.") "Request failed with status code 403"

/-- An environment in which every provider endpoint answers with the
quota-exhaustion signal. -/
def envQuota : Env :=
  { isHealthy := false
    bridgeSearch := .error (.other "unused")
    videosEndpoint := fun _ => .error quotaErr403
    channelsEndpoint := fun _ => .error quotaErr403
    searchEndpoint := .error quotaErr403
    playlistEndpoint := fun _ _ => .error quotaErr403 }

/-- Claim C1 (code bug): the client performs NO key rotation on quota
exhaustion. It holds a single fixed API key (no APIKeyManager is ever
constructed or consulted), so when the provider answers 403
quota-exceeded, each client method surfaces the quota APIError to its
caller after exactly ONE upstream call — no reportError, no rotateKey, no
retry with another key — with retryable = false; the cache and all other
state are left unchanged. The rotate-and-retry loop the claim (and the
repository documentation) describes does not exist in YouTubeAPIClient. -/
theorem C1_quota_no_rotation :
    (handleError quotaErr403).code = 403
    ∧ (handleError quotaErr403).retryable = false
    ∧ (handleError quotaErr403).userMessage
      = "YouTube API quota exceeded. The quota resets daily at midnight PST. Try again in a few hours or contact support for a premium API key."
    ∧ getChannelInfo envQuota "UC1" 1000 APICache.make
      = ⟨.error (handleError quotaErr403), APICache.make, 1⟩
    ∧ getVideoDetails envQuota ["v1"] = (.error (handleError quotaErr403), 1)
    ∧ searchChannelsViaAPI envQuota "search:q" 1000 APICache.make
      = ⟨.error (handleError quotaErr403), APICache.make, 1⟩
    ∧ getChannelVideos envQuota cfgNative "UC1" none 1000 APICache.make
      = ⟨.error (handleError quotaErr403), APICache.make, 1⟩ :=
  ⟨rfl, rfl, rfl, rfl, rfl, rfl, rfl⟩


/-- One hour in milliseconds. -/
def hourC10 : Nat := 60 * 60 * 1000

/-- First call time of the staleness scenario: day 100. -/
def t1C10 : Nat := 100 * APIKeyManager.msPerDay

/-- Publication time: one hour inside the 30-day window at t1C10. -/
def pubC10 : Nat := 70 * APIKeyManager.msPerDay + hourC10

/-- Second call time: three hours later (within the 4-hour default TTL),
by which pubC10 has fallen out of the 30-day window. -/
def t2C10 : Nat := t1C10 + 3 * hourC10

/-- The detail item of the scenario's single upload. -/
def vItemC10 : YouTubeVideoItem :=
  { id := "v", title := "v", thumbnails := plainThumbs, channelId := "UC1",
    channelTitle := "UC1", publishedAt := pubC10, duration := "PT1M",
    description := "" }

/-- The video the client returns for that upload. -/
def videoC10 : Video := mapVideoItem vItemC10

/-- The playlist item of that upload. -/
def plItemC10 : YouTubePlaylistItem := { publishedAt := pubC10, videoId := "v" }

/-- An environment with one channel whose uploads playlist holds exactly
the upload published at pubC10. -/
def envStale : Env :=
  { isHealthy := false
    bridgeSearch := .error (.other "unused")
    videosEndpoint := fun _ => .ok (okItems [vItemC10])
    channelsEndpoint := fun ids => .ok (okItems (ids.map mkChannelItem))
    searchEndpoint := .error (.other "unused")
    playlistEndpoint := fun _ _ => .ok (okItems [plItemC10]) }

/-- Counterexample to claim C10: a video inside the window at the first
call is cached (default TTL 4 hours); a second call 3 hours later is
served from the cache with zero upstream calls and returns the same
video, although by then its publication time lies OUTSIDE the
30-day window of the (second) call — so not every video returned by
getChannelVideos was published within the window of the call. -/
theorem C10_counterexample :
    ((t1C10 : Int) - 30 * APIKeyManager.msPerDay ≤ (pubC10 : Int))
    ∧ ((getChannelVideos envStale cfgNative "UC1" none t1C10 APICache.make).res.toOption
        = some [videoC10])
    ∧ ((getChannelVideos envStale cfgNative "UC1" none t2C10
          (getChannelVideos envStale cfgNative "UC1" none t1C10 APICache.make).cache).res.toOption
        = some [videoC10])
    ∧ ((getChannelVideos envStale cfgNative "UC1" none t2C10
          (getChannelVideos envStale cfgNative "UC1" none t1C10 APICache.make).cache).calls
        = 0)
    ∧ ((videoC10.publishedAt : Int) < (t2C10 : Int) - 30 * APIKeyManager.msPerDay) := by
  refine ⟨by decide, rfl, rfl, rfl, by decide⟩

/-- C10 (corrected), fresh path: on a videos-cache miss, the playlist
items are filtered by publishedAt ≥ now − videoTimeWindowDays BEFORE
the detail fetch; if no item qualifies the method returns an empty list
without writing the videos cache, and otherwise the result is exactly
the detail fetch of the filtered video ids (then cached under the
videos: key). Cache hits, by contrast, can return videos that are
stale relative to the window of the current call. -/
theorem C10_time_window (env : Env) (cfg : ClientConfig) (channelId : String)
    (maxResults : Option Nat) (now : Nat) (cache : APICache)
    (channel : Channel) (cache2 : APICache) (n : Nat)
    (resp : Option (APIResponse YouTubePlaylistItem))
    (items : List YouTubePlaylistItem)
    (hne : jsTrim channelId ≠ "")
    (hmiss : JsMap.get cache.videoCache
      ("videos:" ++ channelId ++ ":" ++ toString (maxResults.getD cfg.maxResults)) = none)
    (hchan : getChannelInfo env channelId now cache = ⟨.ok channel, cache2, n⟩)
    (hpl : env.playlistEndpoint channel.uploadsPlaylistId
      (maxResults.getD cfg.maxResults) = .ok resp)
    (hval : validateItems resp = .ok items) :
    ((items.filter fun it =>
        (now : Int) - cfg.videoTimeWindowDays * APIKeyManager.msPerDay
          ≤ (it.publishedAt : Int)) = [] →
      getChannelVideos env cfg channelId maxResults now cache
        = ⟨.ok [], cache2, n + 1⟩)
    ∧ (∀ res k,
        getVideoDetails env
          ((items.filter fun it =>
              (now : Int) - cfg.videoTimeWindowDays * APIKeyManager.msPerDay
                ≤ (it.publishedAt : Int)).map (fun it => it.videoId))
          = (.ok res, k) →
        (items.filter fun it =>
            (now : Int) - cfg.videoTimeWindowDays * APIKeyManager.msPerDay
              ≤ (it.publishedAt : Int)) ≠ [] →
        getChannelVideos env cfg channelId maxResults now cache
          = ⟨.ok res,
              APICache.setVideos now
                ("videos:" ++ channelId ++ ":" ++ toString (maxResults.getD cfg.maxResults))
                (.videos res) none cache2,
              n + 1 + k⟩) := by
  have hget : APICache.getVideos now
      ("videos:" ++ channelId ++ ":" ++ toString (maxResults.getD cfg.maxResults)) cache
      = (none, cache) := by
    simp [APICache.getVideos, hmiss]
  constructor
  · intro hf
    simp only [getChannelVideos]
    rw [if_neg hne]
    simp only [hget, hchan, hpl, hval, hf, List.map_nil, List.isEmpty_nil, if_true]
  · intro res k hdet hf
    simp only [getChannelVideos]
    rw [if_neg hne]
    simp only [hget, hchan, hpl, hval, hdet]
    rw [if_neg (by simpa [List.isEmpty_iff] using hf)]

/-- Witness for C10 at a concrete instance: the staleness scenario's first
call, whose single playlist item survives the filter. -/
theorem C10_time_window_witness :
    getChannelVideos envStale cfgNative "UC1" none t1C10 APICache.make
      = ⟨.ok [videoC10],
          APICache.setVideos t1C10 ("videos:" ++ "UC1" ++ ":" ++ toString (50 : Nat))
            (.videos [videoC10]) none
            (getChannelInfo envStale "UC1" t1C10 APICache.make).cache,
          1 + 1 + 1⟩ := by
  exact (C10_time_window envStale cfgNative "UC1" none t1C10 APICache.make
    (mapChannelItem (mkChannelItem "UC1"))
    (getChannelInfo envStale "UC1" t1C10 APICache.make).cache 1
    (okItems [plItemC10]) [plItemC10]
    (by decide) rfl rfl rfl rfl).2 [videoC10] 1 rfl (by decide)


end YouFocus
